import Mathlib

/-!
Shallow embedding of `src/sapphireppplot/numpyify.py` — the module that
converts ParaView solution data to dense, coordinate-ordered numpy arrays.

Modelling conventions:
* Coordinates, field values and time-step values are modelled as `Int`.
  The algorithms in `numpyify.py` use only comparison and equality on these
  quantities (never arithmetic), so any linearly ordered type with decidable
  equality is a faithful model; `Int` keeps everything executable.
* A fetched VTK dataset is a `Solution`: its point list plus name-indexed
  point-data and cell-data arrays.  The ParaView `CellCenters` and
  `PointDatatoCellData` filter outputs are recorded as the `cellCenters` and
  `cellData` fields of the snapshot.
* `np.lexsort((z, y, x))` is a stable sort of the sample indices by the
  (x, y, z) key.  The result of a stable sort is uniquely determined by the
  key order and the input order, so it is modelled by `List.insertionSort`
  (which is stable and kernel-reducible); sortedness and stability are
  proved below, pinning the model to exactly numpy's documented behaviour.
* numpy operations that can raise (`reshape`, fancy indexing, `np.array` on
  an inhomogeneous nested list, indexing `points[0]` of an empty array)
  return `Except NumpyError` values with a constructor per Python exception.
-/

deriving instance DecidableEq for Except

namespace Numpyify

/-- One row of the VTK points array: the x/y/z coordinates of a sample. -/
structure Point where
  x : Int
  y : Int
  z : Int
deriving DecidableEq

/-- A named VTK data array: scalar (one value per sample) or vector
(three components per sample). -/
inductive VtkArray where
  | scalar (vals : List Int)
  | vector (vals : List (Int × Int × Int))
deriving DecidableEq

/-- The exceptions the Python code can surface, one constructor per
distinct raise site / numpy failure mode. -/
inductive NumpyError where
  /-- the explicit `KeyError` raised for a `_Magnitude` field name -/
  | magnitudeKeyError (name : String)
  /-- `vtk_to_numpy(None)` after `GetArray` / `GetAbstractArray` misses -/
  | missingArray (name : String)
  /-- numpy `IndexError` (out-of-bounds fancy index, too many indices,
  boolean mask of wrong length, or `points[0]` on an empty array) -/
  | indexError
  /-- numpy `ValueError` from assigning a wrongly-shaped row into `data[i]` -/
  | broadcastError
  /-- numpy `ValueError` from `reshape` with a mismatched element count -/
  | reshapeError
  /-- numpy `ValueError` from `np.array` on an inhomogeneous list of frames -/
  | inhomogeneousArray
deriving DecidableEq

/-- Lexicographic order on points: x is the primary key, y secondary,
z tertiary.  This is the key order of `np.lexsort((z, y, x))`. -/
def Point.le (p q : Point) : Prop :=
  p.x < q.x ∨ (p.x = q.x ∧ (p.y < q.y ∨ (p.y = q.y ∧ p.z ≤ q.z)))

instance : DecidableRel Point.le := fun p q =>
  decidable_of_iff
    (p.x < q.x ∨ (p.x = q.x ∧ (p.y < q.y ∨ (p.y = q.y ∧ p.z ≤ q.z)))) Iff.rfl

instance : IsRefl Point Point.le :=
  ⟨fun _ => Or.inr ⟨rfl, Or.inr ⟨rfl, le_refl _⟩⟩⟩

instance : IsTotal Point Point.le := by
  constructor
  intro p q
  unfold Point.le
  rcases lt_trichotomy p.x q.x with h | h | h
  · exact Or.inl (Or.inl h)
  · rcases lt_trichotomy p.y q.y with h' | h' | h'
    · exact Or.inl (Or.inr ⟨h, Or.inl h'⟩)
    · rcases le_total p.z q.z with h'' | h''
      · exact Or.inl (Or.inr ⟨h, Or.inr ⟨h', h''⟩⟩)
      · exact Or.inr (Or.inr ⟨h.symm, Or.inr ⟨h'.symm, h''⟩⟩)
    · exact Or.inr (Or.inr ⟨h.symm, Or.inl h'⟩)
  · exact Or.inr (Or.inl h)

instance : IsTrans Point Point.le := by
  constructor
  intro p q r hpq hqr
  unfold Point.le at *
  rcases hpq with h | ⟨hx, h⟩ <;> rcases hqr with h' | ⟨hx', h'⟩
  · exact Or.inl (lt_trans h h')
  · exact Or.inl (hx' ▸ h)
  · exact Or.inl (hx ▸ h')
  · refine Or.inr ⟨hx.trans hx', ?_⟩
    rcases h with h | ⟨hy, h⟩ <;> rcases h' with h' | ⟨hy', h'⟩
    · exact Or.inl (lt_trans h h')
    · exact Or.inl (hy' ▸ h)
    · exact Or.inl (hy ▸ h')
    · exact Or.inr ⟨hy.trans hy', le_trans h h'⟩

instance : IsAntisymm Point Point.le := by
  constructor
  intro p q hpq hqp
  cases p with
  | mk px py pz =>
    cases q with
    | mk qx qy qz =>
      simp only [Point.le] at hpq hqp
      simp only [Point.mk.injEq]
      omega

/-- Key comparison used to sort the enumerated point list: compare only the
point, never the index, exactly as `np.lexsort` does. -/
def keyLe (a b : Nat × Point) : Prop := Point.le a.2 b.2

instance : DecidableRel keyLe := fun a b => by
  unfold keyLe; infer_instance

instance : IsRefl (Nat × Point) keyLe := ⟨fun a => refl_of Point.le a.2⟩

instance : IsTotal (Nat × Point) keyLe := ⟨fun a b => total_of Point.le a.2 b.2⟩

instance : IsTrans (Nat × Point) keyLe :=
  ⟨fun _ _ _ h h' => trans_of Point.le h h'⟩

/-- `np.lexsort((points[:, 2], points[:, 1], points[:, 0]))` paired with the
points themselves: the index/point pairs, stably sorted by the (x, y, z)
key.  `List.insertionSort` is a stable sort, and a stable sort's output is
uniquely determined, so this is exactly numpy's (stable) lexsort. -/
def sortedEnum (points : List Point) : List (Nat × Point) :=
  List.insertionSort keyLe points.enum

/-- The permutation index array `sorted_indices`. -/
def sorted_indices (points : List Point) : List Nat :=
  (sortedEnum points).map Prod.fst

/-- The point list reordered into sorted order (`points[sorted_indices]`). -/
def sortPoints (points : List Point) : List Point :=
  (sortedEnum points).map Prod.snd

/-- numpy fancy indexing `xs[perm]` for an in-bounds index list. -/
def applyPerm {α : Type} (perm : List Nat) (xs : List α) : List α :=
  perm.filterMap (fun i => xs[i]?)

/-- numpy fancy indexing `xs[indices]` with its bounds check: raises
`IndexError` when some index is out of bounds. -/
def npIndex {α : Type} (indices : List Nat) (xs : List α) :
    Except NumpyError (List α) :=
  if indices.all (fun i => i < xs.length) then .ok (applyPerm indices xs)
  else .error .indexError

/-- Python `str.endswith`, expressed on the character sequence. -/
def strEndsWith (s t : String) : Bool :=
  t.data.isSuffixOf s.data

/-- Python `str.removesuffix` at a call site where the suffix is known to
match: drop the last `n` characters. -/
def strDropRight (s : String) (n : Nat) : String :=
  String.mk (s.data.take (s.data.length - n))

/-- A fetched ParaView dataset together with the fetched outputs of the
`CellCenters` and `PointDatatoCellData` filters applied to it. -/
structure Solution where
  /-- `GetPoints()` of the fetched solution (used by `to_numpy_1d`) -/
  points : List Point
  /-- `GetPointData().GetArray(name)` (used by `to_numpy_1d`) -/
  pointData : String → Option VtkArray
  /-- `GetPoints()` of the fetched `CellCenters` output -/
  cellCenters : List Point
  /-- `GetCellData().GetAbstractArray(name)` of the fetched
  `PointDatatoCellData` output -/
  cellData : String → Option VtkArray

/-- The Python `for array_name in array_names` loop: the first raised
exception aborts the whole call. -/
def mapExcept {α β : Type} (f : α → Except NumpyError β) :
    List α → Except NumpyError (List β)
  | [] => .ok []
  | a :: l => do
    let b ← f a
    let bs ← mapExcept f l
    pure (b :: bs)

/-- Fetch of the base cell array followed by component selection and
reordering (lines 147-157 of the source): `GetAbstractArray`, then
`array[sorted_indices]` when no component is requested (`vec_component`
is `-1` in the Python, `none` here) or `array[sorted_indices, c]` for a
requested component `c`.  The mismatched pairings reproduce numpy's
behaviour: indexing a 1-D scalar array with two indices is an
`IndexError`; assigning a 2-D vector slice into the 1-D `data[i]` is a
broadcast `ValueError`. -/
def fetchAndSelect (cellData : String → Option VtkArray) (si : List Nat)
    (base_array_name : String) (vec_component : Option Nat) :
    Except NumpyError (List Int) :=
  match cellData base_array_name, vec_component with
  | none, _ => .error (.missingArray base_array_name)
  | some (.scalar vals), none => npIndex si vals
  | some (.scalar _), some _ => .error .indexError
  | some (.vector _), none => .error .broadcastError
  | some (.vector vals), some c =>
      npIndex si
        (vals.map (fun v => if c = 0 then v.1 else if c = 1 then v.2.1 else v.2.2))

/-- Body of the per-field loop of `to_numpy_point_list` (lines 129-157) and
of `to_numpy_time_steps` (lines 339-367): the `_Magnitude` check, the
`_X` / `_Y` / `_Z` suffix decoding (if/elif chain, lines 130-145), and the
fetch/select/reorder step. -/
def readCellField (cellData : String → Option VtkArray) (si : List Nat)
    (name : String) : Except NumpyError (List Int) :=
  if strEndsWith name "_Magnitude" then
    .error (.magnitudeKeyError name)
  else if strEndsWith name "_X" then
    fetchAndSelect cellData si (strDropRight name 2) (some 0)
  else if strEndsWith name "_Y" then
    fetchAndSelect cellData si (strDropRight name 2) (some 1)
  else if strEndsWith name "_Z" then
    fetchAndSelect cellData si (strDropRight name 2) (some 2)
  else
    fetchAndSelect cellData si name none

/-- `to_numpy_point_list` (lines 73-159): cell-centre points sorted by the
(x, y, z) key, and every requested field reordered by the same
permutation. -/
def to_numpy_point_list (solution : Solution) (array_names : List String) :
    Except NumpyError (List Point × List (List Int)) := do
  let pts := solution.cellCenters
  let si := sorted_indices pts
  let points := applyPerm si pts
  let data ← mapExcept (readCellField solution.cellData si) array_names
  pure (points, data)

/-- `n` consecutive chunks of `k` elements each, taken from the front of
`xs`: the row-major regrouping underlying `np.reshape`. -/
def chunks {α : Type} : Nat → Nat → List α → List (List α)
  | 0, _, _ => []
  | n + 1, k, xs => xs.take k :: chunks n k (xs.drop k)

/-- numpy `reshape` to a 2-axis shape `(a, b)`: raises `ValueError` unless
`a * b` equals the element count, never truncating or padding. -/
def npReshape2 {α : Type} (a b : Nat) (xs : List α) :
    Except NumpyError (List (List α)) :=
  if a * b = xs.length then .ok (chunks a b xs) else .error .reshapeError

/-- numpy `reshape` to a 3-axis shape `(a, b, c)`. -/
def npReshape3 {α : Type} (a b c : Nat) (xs : List α) :
    Except NumpyError (List (List (List α))) :=
  if a * (b * c) = xs.length then
    .ok ((chunks a (b * c) xs).map (chunks b c))
  else .error .reshapeError

/-- numpy `reshape` to a 4-axis shape `(a, b, c, d)`. -/
def npReshape4 {α : Type} (a b c d : Nat) (xs : List α) :
    Except NumpyError (List (List (List (List α)))) :=
  if a * (b * (c * d)) = xs.length then
    .ok ((chunks a (b * (c * d)) xs).map
      (fun s => (chunks b (c * d) s).map (chunks c d)))
  else .error .reshapeError

/-- numpy `reshape` to a 5-axis shape `(a, b, c, d, e)`. -/
def npReshape5 {α : Type} (a b c d e : Nat) (xs : List α) :
    Except NumpyError (List (List (List (List (List α))))) :=
  if a * (b * (c * (d * e))) = xs.length then
    .ok ((chunks a (b * (c * (d * e))) xs).map
      (fun s => (chunks b (c * (d * e)) s).map
        (fun u => (chunks c (d * e) u).map (chunks d e))))
  else .error .reshapeError

/-- The `size_x` / `size_y` computation of `to_numpy_2d` (lines 194-197):
`np.argwhere(points[:, 1] == points[0, 1]).shape[0]` and the x-analogue,
where `p0` is the first sorted point. -/
def inferShape2d (p0 : Point) (pts : List Point) : Nat × Nat :=
  ((pts.filter (fun p => p.y == p0.y)).length,
   (pts.filter (fun p => p.x == p0.x)).length)

/-- The `size_x` / `size_y` / `size_z` computation of `to_numpy_3d`
(lines 238-249): counts of points agreeing with the first sorted point in
(y, z), in (x, z) and in (x, y) respectively. -/
def inferShape3d (p0 : Point) (pts : List Point) : Nat × Nat × Nat :=
  ((pts.filter (fun p => p.y == p0.y && p.z == p0.z)).length,
   (pts.filter (fun p => p.x == p0.x && p.z == p0.z)).length,
   (pts.filter (fun p => p.x == p0.x && p.y == p0.y)).length)

/-- `to_numpy_2d` (lines 162-201): point-list extraction, 2D shape
inference from the sorted points, then row-major reshape of the points to
`(size_x, size_y, 3)` and of the data to `(channels, size_x, size_y)`. -/
def to_numpy_2d (solution : Solution) (array_names : List String) :
    Except NumpyError (List (List Point) × List (List (List Int))) := do
  let (points, data) ← to_numpy_point_list solution array_names
  match points with
  | [] => .error .indexError
  | p0 :: _ =>
    let size_x := (inferShape2d p0 points).1
    let size_y := (inferShape2d p0 points).2
    let pgrid ← npReshape2 size_x size_y points
    let dgrid ← npReshape3 array_names.length size_x size_y data.flatten
    pure (pgrid, dgrid)

/-- `to_numpy_3d` (lines 204-253): point-list extraction, 3D shape
inference, then reshape of the points to `(size_x, size_y, size_z, 3)` and
of the data to `(channels, size_x, size_y, size_z)`. -/
def to_numpy_3d (solution : Solution) (array_names : List String) :
    Except NumpyError (List (List (List Point)) × List (List (List (List Int)))) := do
  let (points, data) ← to_numpy_point_list solution array_names
  match points with
  | [] => .error .indexError
  | p0 :: _ =>
    let size_x := (inferShape3d p0 points).1
    let size_y := (inferShape3d p0 points).2.1
    let size_z := (inferShape3d p0 points).2.2
    let pgrid ← npReshape3 size_x size_y size_z points
    let dgrid ← npReshape4 array_names.length size_x size_y size_z data.flatten
    pure (pgrid, dgrid)

/-- `points[:, x_direction]`: select one coordinate column. -/
def coordAt (d : Fin 3) (p : Point) : Int :=
  match d with
  | ⟨0, _⟩ => p.x
  | ⟨1, _⟩ => p.y
  | ⟨2, _⟩ => p.z

/-- The boolean mask of `to_numpy_1d` (lines 52-57): start from all-ones,
conjoin `x >= x_min` when `x_min` is set and `x <= x_max` when `x_max`
is set. -/
def inBounds (x_min x_max : Option Int) (v : Int) : Bool :=
  (match x_min with | none => true | some m => decide (m ≤ v)) &&
  (match x_max with | none => true | some m => decide (v ≤ m))

/-- numpy boolean-mask indexing `xs[mask]` (for equal lengths): keep the
entries whose mask bit is true, in order. -/
def maskFilter {α : Type} (mask : List Bool) (xs : List α) : List α :=
  ((mask.zip xs).filter Prod.fst).map Prod.snd

/-- Body of the per-field loop of `to_numpy_1d` (lines 62-68): fetch the
named point-data array directly — no suffix decoding here — and apply the
boolean mask.  numpy raises `IndexError` when the mask length differs from
the array length, and a broadcast `ValueError` when a (N, 3) vector array
is assigned into the (M,)-shaped `data[i]`. -/
def readPointField (pointData : String → Option VtkArray) (mask : List Bool)
    (name : String) : Except NumpyError (List Int) :=
  match pointData name with
  | none => .error (.missingArray name)
  | some (.scalar vals) =>
      if vals.length = mask.length then .ok (maskFilter mask vals)
      else .error .indexError
  | some (.vector _) => .error .broadcastError

/-- `to_numpy_1d` (lines 10-70): extract the `x_direction` coordinate
column and the named point-data arrays, restricted by the optional
`x_min` / `x_max` bounds.  Note: no sorting and no suffix decoding takes
place on this path. -/
def to_numpy_1d (solution : Solution) (array_names : List String)
    (x_direction : Fin 3) (x_min x_max : Option Int) :
    Except NumpyError (List Int × List (List Int)) := do
  let x_all := solution.points.map (coordAt x_direction)
  let mask := x_all.map (inBounds x_min x_max)
  let x_values := maskFilter mask x_all
  let data ← mapExcept (readPointField solution.pointData mask) array_names
  pure (x_values, data)

/-- A time-dependent ParaView source: its declared time-step values, and
for each time value the dataset fetched after `UpdatePipeline(time=t)`. -/
structure TimeSolution where
  /-- `solution.TimestepValues` -/
  TimestepValues : List Int
  /-- the fetched filter outputs at time `t` -/
  snap : Int → Solution

/-- `if not time_steps: time_steps = solution.TimestepValues` — Python
treats both `None` and the empty list as falsy. -/
def effectiveTimeSteps (solution : TimeSolution)
    (time_steps : Option (List Int)) : List Int :=
  match time_steps with
  | none => solution.TimestepValues
  | some [] => solution.TimestepValues
  | some l => l

/-- `to_numpy_time_steps` (lines 256-372): loop over the time steps; at
each time, fetch the snapshot and run exactly the body of
`to_numpy_point_list` on it (the Python loop body, lines 322-367, is a
verbatim copy of lines 107-157).  The first raised exception aborts the
whole call. -/
def to_numpy_time_steps (solution : TimeSolution) (array_names : List String)
    (time_steps : Option (List Int)) :
    Except NumpyError (List Int × List (List Point) × List (List (List Int))) := do
  let ts := effectiveTimeSteps solution time_steps
  let frames ← mapExcept (fun t => to_numpy_point_list (solution.snap t) array_names) ts
  pure (ts, frames.map Prod.fst, frames.map Prod.snd)

/-- Shape of a 2-D numpy-like nested list: (rows, row length). -/
def shape2 {α : Type} (m : List (List α)) : Nat × Nat :=
  (m.length, match m with | [] => 0 | r :: _ => r.length)

/-- Does every row of `m` have the same length? -/
def isRect {α : Type} (m : List (List α)) : Bool :=
  match m with
  | [] => true
  | r :: rs => rs.all (fun s => s.length == r.length)

/-- `np.array` applied to a list of per-frame 2-D float arrays: succeeds
(producing the 3-D stack) iff all frames are rectangular with the same
shape, and raises `ValueError` on an inhomogeneous list. -/
def npStack (frames : List (List (List Int))) :
    Except NumpyError (List (List (List Int))) :=
  if frames.all (fun f => isRect f) &&
      (match frames with
       | [] => true
       | f :: rest => rest.all (fun g => shape2 g == shape2 f)) then
    .ok frames
  else .error .inhomogeneousArray

/-- `to_numpy_time_steps_2d` (lines 375-431): per-frame point-list
extraction, then `points = points[0]` (frame-0 geometry only), `np.array`
on the per-frame data, 2D shape inference from the first frame's sorted
points, and reshape of the stacked data to
`(time, channels, size_x, size_y)`. -/
def to_numpy_time_steps_2d (solution : TimeSolution)
    (array_names : List String) (time_steps : Option (List Int)) :
    Except NumpyError
      (List Int × List (List Point) × List (List (List (List Int)))) := do
  let (ts, points_arr, data_arr) ←
    to_numpy_time_steps solution array_names time_steps
  let points ← match points_arr with
    | [] => Except.error NumpyError.indexError
    | p :: _ => Except.ok p
  let stacked ← npStack data_arr
  match points with
  | [] => .error .indexError
  | p0 :: _ =>
    let size_x := (inferShape2d p0 points).1
    let size_y := (inferShape2d p0 points).2
    let pgrid ← npReshape2 size_x size_y points
    let dgrid ← npReshape4 ts.length array_names.length size_x size_y
      ((stacked.map List.flatten).flatten)
    pure (ts, pgrid, dgrid)

/-- `to_numpy_time_steps_3d` (lines 434-502): as `to_numpy_time_steps_2d`
but with 3D shape inference and a reshape of the stacked data to
`(time, channels, size_x, size_y, size_z)`. -/
def to_numpy_time_steps_3d (solution : TimeSolution)
    (array_names : List String) (time_steps : Option (List Int)) :
    Except NumpyError
      (List Int × List (List (List Point)) ×
       List (List (List (List (List Int))))) := do
  let (ts, points_arr, data_arr) ←
    to_numpy_time_steps solution array_names time_steps
  let points ← match points_arr with
    | [] => Except.error NumpyError.indexError
    | p :: _ => Except.ok p
  let stacked ← npStack data_arr
  match points with
  | [] => .error .indexError
  | p0 :: _ =>
    let size_x := (inferShape3d p0 points).1
    let size_y := (inferShape3d p0 points).2.1
    let size_z := (inferShape3d p0 points).2.2
    let pgrid ← npReshape3 size_x size_y size_z points
    let dgrid ← npReshape5 ts.length array_names.length size_x size_y size_z
      ((stacked.map List.flatten).flatten)
    pure (ts, pgrid, dgrid)

/-- Points of a separable 2D Cartesian-product grid, listed row-major with
x slowest: every combination of an entry of `xs` with an entry of `ys`, at
the fixed third coordinate `z0`. -/
def gridList2 (xs ys : List Int) (z0 : Int) : List Point :=
  xs.flatMap (fun x => ys.map (fun y => Point.mk x y z0))

/-- Points of a separable 3D Cartesian-product grid, row-major with x
slowest and z fastest. -/
def gridList3 (xs ys zs : List Int) : List Point :=
  xs.flatMap (fun x => ys.flatMap (fun y => zs.map (fun z => Point.mk x y z)))

/-! Helper lemmas about the Coordinate Sorter. -/

theorem filterMap_eq_map_of_forall {α β : Type} {f : α → Option β} {g : α → β} :
    ∀ {l : List α}, (∀ a ∈ l, f a = some (g a)) → l.filterMap f = l.map g
  | [], _ => rfl
  | a :: l, h => by
    rw [List.filterMap_cons, h a (List.mem_cons_self a l),
      filterMap_eq_map_of_forall (fun b hb => h b (List.mem_cons_of_mem a hb)),
      List.map_cons]

theorem mem_sortedEnum {P : List Point} {e : Nat × Point} :
    e ∈ sortedEnum P ↔ e ∈ P.enum :=
  (List.perm_insertionSort keyLe P.enum).mem_iff

theorem sortedEnum_perm (P : List Point) : (sortedEnum P).Perm P.enum :=
  List.perm_insertionSort keyLe P.enum

theorem applyPerm_sorted_indices (P : List Point) :
    applyPerm (sorted_indices P) P = sortPoints P := by
  unfold applyPerm sorted_indices sortPoints
  rw [List.filterMap_map]
  exact filterMap_eq_map_of_forall (fun e he =>
    List.mem_enum_iff_getElem?.mp (mem_sortedEnum.mp he))

theorem sortPoints_perm (P : List Point) : (sortPoints P).Perm P := by
  have h := (sortedEnum_perm P).map Prod.snd
  rwa [List.enum_map_snd] at h

theorem sortPoints_length (P : List Point) : (sortPoints P).length = P.length :=
  (sortPoints_perm P).length_eq

theorem sorted_indices_perm_range (P : List Point) :
    (sorted_indices P).Perm (List.range P.length) := by
  have h := (sortedEnum_perm P).map Prod.fst
  rwa [List.enum_map_fst] at h

theorem sorted_indices_length (P : List Point) :
    (sorted_indices P).length = P.length := by
  rw [(sorted_indices_perm_range P).length_eq, List.length_range]

theorem sorted_indices_lt {P : List Point} {i : Nat} (h : i ∈ sorted_indices P) :
    i < P.length :=
  List.mem_range.mp ((sorted_indices_perm_range P).mem_iff.mp h)

theorem sorted_sortPoints (P : List Point) : (sortPoints P).Sorted Point.le := by
  have h : (sortedEnum P).Pairwise keyLe := List.sorted_insertionSort keyLe P.enum
  exact List.Pairwise.map Prod.snd (fun a b hab => hab) h

theorem sortPoints_of_sorted {P : List Point} (h : P.Sorted Point.le) :
    sortPoints P = P := by
  have henum : P.enum.Sorted keyLe := by
    have h2 : (P.enum.map Prod.snd).Pairwise Point.le := by
      rwa [List.enum_map_snd]
    have h3 := (@List.pairwise_map (Nat × Point) Point Prod.snd Point.le P.enum).mp h2
    exact h3.imp (fun hab => hab)
  unfold sortPoints sortedEnum
  rw [List.Sorted.insertionSort_eq henum, List.enum_map_snd]

theorem sortPoints_idem (P : List Point) :
    sortPoints (sortPoints P) = sortPoints P :=
  sortPoints_of_sorted (sorted_sortPoints P)

theorem sortPoints_eq_of_perm {P G : List Point} (hp : P.Perm G)
    (hs : G.Sorted Point.le) : sortPoints P = G :=
  List.eq_of_perm_of_sorted ((sortPoints_perm P).trans hp) (sorted_sortPoints P) hs

/-- Stability of the Coordinate Sorter: the subsequence of index/point
pairs carrying one fixed coordinate key is passed through verbatim, so
exact-coordinate ties keep their original relative order. -/
theorem sortedEnum_filter_key (P : List Point) (q : Point) :
    (sortedEnum P).filter (fun e => e.2 == q) =
      P.enum.filter (fun e => e.2 == q) := by
  have hmemq : ∀ e ∈ P.enum.filter (fun e => e.2 == q), e.2 = q := by
    intro e he
    exact beq_iff_eq.mp (List.mem_filter.mp he).2
  have hsub : (P.enum.filter (fun e => e.2 == q)).Sublist (sortedEnum P) := by
    refine List.sublist_insertionSort ?_ (List.filter_sublist P.enum)
    refine List.pairwise_of_forall_mem_list ?_
    intro a ha b hb
    show Point.le a.2 b.2
    rw [hmemq a ha, hmemq b hb]
    exact refl_of Point.le q
  have hsub2 : (P.enum.filter (fun e => e.2 == q)).Sublist
      ((sortedEnum P).filter (fun e => e.2 == q)) := by
    have h := hsub.filter (fun e => e.2 == q)
    rwa [List.filter_filter, List.filter_congr
      (fun e _ => by rw [Bool.and_self])] at h
  refine (hsub2.eq_of_length ?_).symm
  rw [← List.countP_eq_length_filter, ← List.countP_eq_length_filter]
  exact ((sortedEnum_perm P).countP_eq _).symm

/-! Helper lemmas about indexing, the per-field loop and the point-list
extraction. -/

theorem applyPerm_cons_of_lt {α : Type} {i : Nat} {perm : List Nat}
    {xs : List α} (hi : i < xs.length) :
    applyPerm (i :: perm) xs = xs[i] :: applyPerm perm xs := by
  unfold applyPerm
  rw [List.filterMap_cons, List.getElem?_eq_getElem hi]

theorem applyPerm_length {α : Type} : ∀ {perm : List Nat} {xs : List α},
    (∀ i ∈ perm, i < xs.length) → (applyPerm perm xs).length = perm.length := by
  intro perm
  induction perm with
  | nil => intro xs _; rfl
  | cons i p ih =>
    intro xs h
    rw [applyPerm_cons_of_lt (h i (List.mem_cons_self i p)), List.length_cons,
      ih (fun j hj => h j (List.mem_cons_of_mem i hj)), List.length_cons]

theorem npIndex_ok_iff {α : Type} {indices : List Nat} {xs : List α}
    {r : List α} :
    npIndex indices xs = .ok r ↔
      (∀ i ∈ indices, i < xs.length) ∧ r = applyPerm indices xs := by
  unfold npIndex
  by_cases h : indices.all (fun i => i < xs.length)
  · simp only [h, if_pos, Except.ok.injEq]
    constructor
    · intro he
      exact ⟨fun i hi => by simpa using (List.all_eq_true.mp h i hi), he.symm⟩
    · intro ⟨_, he⟩
      exact he.symm
  · simp only [h, if_neg, Bool.false_eq_true, not_false_eq_true, if_neg]
    constructor
    · intro he
      cases he
    · intro ⟨hb, _⟩
      exact absurd (List.all_eq_true.mpr (fun i hi => by simpa using hb i hi)) h

theorem mapExcept_ok_of_forall {α β : Type} {f : α → Except NumpyError β}
    {g : α → β} :
    ∀ {l : List α}, (∀ a ∈ l, f a = .ok (g a)) → mapExcept f l = .ok (l.map g)
  | [], _ => rfl
  | a :: l, h => by
    have ha := h a (List.mem_cons_self a l)
    have hrec := mapExcept_ok_of_forall (fun b hb => h b (List.mem_cons_of_mem a hb))
    unfold mapExcept
    rw [ha, hrec]
    rfl

theorem mapExcept_ok_forall {α β : Type} {f : α → Except NumpyError β} :
    ∀ {l : List α} {bs : List β}, mapExcept f l = .ok bs →
      bs.length = l.length ∧
      ∀ c : Nat, ∀ a, l[c]? = some a → ∃ b, bs[c]? = some b ∧ f a = .ok b := by
  intro l
  induction l with
  | nil =>
    intro bs h
    cases h
    exact ⟨rfl, fun c a ha => by cases ha⟩
  | cons a l ih =>
    intro bs h
    unfold mapExcept at h
    cases hfa : f a with
    | error e => rw [hfa] at h; cases h
    | ok b =>
      rw [hfa] at h
      cases hrec : mapExcept f l with
      | error e => rw [hrec] at h; cases h
      | ok bs2 =>
        rw [hrec] at h
        have hb : bs = b :: bs2 := (Except.ok.inj h).symm
        subst hb
        obtain ⟨hlen, hidx⟩ := ih hrec
        refine ⟨by simp [hlen], ?_⟩
        intro c a2 ha2
        cases c with
        | zero =>
          simp only [List.getElem?_cons_zero, Option.some.injEq] at ha2
          subst ha2
          exact ⟨b, by simp, hfa⟩
        | succ c =>
          simp only [List.getElem?_cons_succ] at ha2 ⊢
          exact hidx c a2 ha2

theorem mapExcept_mem_ok {α β : Type} {f : α → Except NumpyError β} :
    ∀ {l : List α} {bs : List β}, mapExcept f l = .ok bs →
      ∀ b ∈ bs, ∃ a ∈ l, f a = .ok b := by
  intro l
  induction l with
  | nil =>
    intro bs h b hb
    cases h
    cases hb
  | cons a l ih =>
    intro bs h b hb
    unfold mapExcept at h
    cases hfa : f a with
    | error e => rw [hfa] at h; cases h
    | ok b1 =>
      rw [hfa] at h
      cases hrec : mapExcept f l with
      | error e => rw [hrec] at h; cases h
      | ok bs2 =>
        rw [hrec] at h
        have hbs : bs = b1 :: bs2 := (Except.ok.inj h).symm
        subst hbs
        rcases List.mem_cons.mp hb with hb1 | hb2
        · exact ⟨a, List.mem_cons_self a l, hb1 ▸ hfa⟩
        · obtain ⟨a2, ha2, hfa2⟩ := ih hrec b hb2
          exact ⟨a2, List.mem_cons_of_mem a ha2, hfa2⟩

theorem mapExcept_cons_error {α β : Type} {f : α → Except NumpyError β}
    {a : α} {l : List α} {e : NumpyError} (h : f a = .error e) :
    mapExcept f (a :: l) = .error e := by
  unfold mapExcept
  rw [h]
  rfl

theorem npIndex_ok_length {α : Type} {indices : List Nat} {xs : List α}
    {r : List α} (h : npIndex indices xs = .ok r) : r.length = indices.length := by
  obtain ⟨hb, hr⟩ := npIndex_ok_iff.mp h
  rw [hr]
  exact applyPerm_length hb

theorem fetchAndSelect_ok_length {cd : String → Option VtkArray}
    {si : List Nat} {base : String} {comp : Option Nat} {row : List Int}
    (h : fetchAndSelect cd si base comp = .ok row) : row.length = si.length := by
  unfold fetchAndSelect at h
  rcases hcd : cd base with _ | arr
  · rw [hcd] at h
    cases h
  · rcases arr with vals | vals <;> rw [hcd] at h <;> rcases comp with _ | c
    · exact npIndex_ok_length h
    · cases h
    · cases h
    · exact npIndex_ok_length h

theorem readCellField_ok_length {cd : String → Option VtkArray}
    {si : List Nat} {name : String} {row : List Int}
    (h : readCellField cd si name = .ok row) : row.length = si.length := by
  unfold readCellField at h
  by_cases hm : strEndsWith name "_Magnitude" = true
  · rw [if_pos hm] at h
    cases h
  · rw [if_neg hm] at h
    by_cases hX : strEndsWith name "_X" = true
    · rw [if_pos hX] at h
      exact fetchAndSelect_ok_length h
    · rw [if_neg hX] at h
      by_cases hY : strEndsWith name "_Y" = true
      · rw [if_pos hY] at h
        exact fetchAndSelect_ok_length h
      · rw [if_neg hY] at h
        by_cases hZ : strEndsWith name "_Z" = true
        · rw [if_pos hZ] at h
          exact fetchAndSelect_ok_length h
        · rw [if_neg hZ] at h
          exact fetchAndSelect_ok_length h

theorem to_numpy_point_list_ok {sol : Solution} {names : List String}
    {pts : List Point} {data : List (List Int)}
    (h : to_numpy_point_list sol names = .ok (pts, data)) :
    pts = sortPoints sol.cellCenters ∧
    data.length = names.length ∧
    ∀ row ∈ data, row.length = sol.cellCenters.length := by
  unfold to_numpy_point_list at h
  dsimp only at h
  cases hm : mapExcept (readCellField sol.cellData (sorted_indices sol.cellCenters)) names with
  | error e =>
    rw [hm] at h
    cases h
  | ok rows =>
    rw [hm] at h
    have hpair := Except.ok.inj h
    have hpts : pts = applyPerm (sorted_indices sol.cellCenters) sol.cellCenters :=
      (congrArg Prod.fst hpair).symm
    have hdata : data = rows := (congrArg Prod.snd hpair).symm
    subst hdata
    refine ⟨hpts.trans (applyPerm_sorted_indices _), (mapExcept_ok_forall hm).1, ?_⟩
    intro row hrow
    obtain ⟨name, _, hread⟩ := mapExcept_mem_ok hm row hrow
    rw [readCellField_ok_length hread, sorted_indices_length]

theorem to_numpy_point_list_ok_length {sol : Solution} {names : List String}
    {pts : List Point} {data : List (List Int)}
    (h : to_numpy_point_list sol names = .ok (pts, data)) :
    pts.length = sol.cellCenters.length := by
  rw [(to_numpy_point_list_ok h).1, sortPoints_length]

/-! Helper lemmas about `chunks` — the row-major regrouping that underlies
the `np.reshape` model. -/

theorem chunks_length {α : Type} : ∀ (n k : Nat) (xs : List α),
    (chunks n k xs).length = n
  | 0, _, _ => rfl
  | n + 1, k, xs => by
    unfold chunks
    rw [List.length_cons, chunks_length n k (xs.drop k)]

theorem flatten_chunks {α : Type} : ∀ {n k : Nat} {xs : List α},
    xs.length = n * k → (chunks n k xs).flatten = xs := by
  intro n
  induction n with
  | zero =>
    intro k xs h
    rw [Nat.zero_mul] at h
    rw [List.eq_nil_of_length_eq_zero h]
    rfl
  | succ n ih =>
    intro k xs h
    show (xs.take k :: chunks n k (xs.drop k)).flatten = xs
    rw [List.flatten_cons, ih (by rw [List.length_drop, h, Nat.succ_mul]; omega),
      List.take_append_drop]

theorem mem_chunks_length {α : Type} : ∀ {n k : Nat} {xs : List α},
    xs.length = n * k → ∀ r ∈ chunks n k xs, r.length = k := by
  intro n
  induction n with
  | zero =>
    intro k xs _ r hr
    cases hr
  | succ n ih =>
    intro k xs h r hr
    rcases List.mem_cons.mp hr with hr1 | hr2
    · rw [hr1, List.length_take]
      have : k ≤ xs.length := by rw [h, Nat.succ_mul]; omega
      omega
    · exact ih (by rw [List.length_drop, h, Nat.succ_mul]; omega) r hr2

theorem chunks_getElem {α : Type} : ∀ {n k : Nat} {xs : List α},
    xs.length = n * k → ∀ (i j : Nat), j < k →
      ((chunks n k xs)[i]?.bind (fun r => r[j]?)) = xs[i * k + j]? := by
  intro n
  induction n with
  | zero =>
    intro k xs h i j _
    rw [Nat.zero_mul] at h
    rw [List.eq_nil_of_length_eq_zero h]
    cases i <;> rfl
  | succ n ih =>
    intro k xs h i j hj
    have hk : k ≤ xs.length := by rw [h, Nat.succ_mul]; omega
    cases i with
    | zero =>
      show ((xs.take k :: chunks n k (xs.drop k))[0]?.bind (fun r => r[j]?)) = _
      rw [List.getElem?_cons_zero]
      show (xs.take k)[j]? = xs[0 * k + j]?
      rw [List.getElem?_take, if_pos hj, Nat.zero_mul, Nat.zero_add]
    | succ i =>
      show ((xs.take k :: chunks n k (xs.drop k))[i + 1]?.bind (fun r => r[j]?)) = _
      rw [List.getElem?_cons_succ]
      rw [ih (by rw [List.length_drop, h, Nat.succ_mul]; omega) i j hj,
        List.getElem?_drop]
      congr 1
      ring

theorem chunks_append {α : Type} {k : Nat} {ys rest : List α} {n : Nat}
    (h : ys.length = k) :
    chunks (n + 1) k (ys ++ rest) = ys :: chunks n k rest := by
  show (ys ++ rest).take k :: chunks n k ((ys ++ rest).drop k) = _
  rw [← h, List.take_left, List.drop_left]

theorem chunks_flatten_uniform {α : Type} {k : Nat} :
    ∀ {bs : List (List α)}, (∀ b ∈ bs, b.length = k) →
      chunks bs.length k bs.flatten = bs := by
  intro bs
  induction bs with
  | nil => intro _; rfl
  | cons b bs ih =>
    intro h
    rw [List.length_cons, List.flatten_cons,
      chunks_append (h b (List.mem_cons_self b bs)),
      ih (fun r hr => h r (List.mem_cons_of_mem b hr))]

/-! Helper lemmas about separable Cartesian-product grids. -/

theorem sum_map_const {α : Type} (l : List α) (c : Nat) :
    (l.map (fun _ => c)).sum = l.length * c := by
  induction l with
  | nil => simp
  | cons a l ih =>
    rw [List.map_cons, List.sum_cons, ih, List.length_cons, Nat.succ_mul,
      Nat.add_comm]

theorem gridList2_length (xs ys : List Int) (z0 : Int) :
    (gridList2 xs ys z0).length = xs.length * ys.length := by
  unfold gridList2
  rw [List.length_flatMap, List.map_congr_left
    (g := fun _ => ys.length) (fun x _ => by simp), sum_map_const]

theorem gridList2_sorted {xs ys : List Int} {z0 : Int}
    (hx : xs.Pairwise (· < ·)) (hy : ys.Pairwise (· < ·)) :
    (gridList2 xs ys z0).Pairwise Point.le := by
  unfold gridList2
  rw [List.pairwise_flatMap]
  constructor
  · intro x _
    rw [List.pairwise_map]
    exact hy.imp (fun hab => Or.inr ⟨rfl, Or.inl hab⟩)
  · refine hx.imp ?_
    intro a b hab p hp q hq
    obtain ⟨ya, _, rfl⟩ := List.mem_map.mp hp
    obtain ⟨yb, _, rfl⟩ := List.mem_map.mp hq
    exact Or.inl hab

theorem gridList2_mem {xs ys : List Int} {z0 : Int} {p : Point}
    (hp : p ∈ gridList2 xs ys z0) : p.x ∈ xs ∧ p.y ∈ ys ∧ p.z = z0 := by
  unfold gridList2 at hp
  obtain ⟨x, hx, hmem⟩ := List.mem_flatMap.mp hp
  obtain ⟨y, hy, rfl⟩ := List.mem_map.mp hmem
  exact ⟨hx, hy, rfl⟩

theorem gridList2_countP_y {xs : List Int} {y0 : Int} {ys : List Int}
    {z0 : Int} (hy : (y0 :: ys).Pairwise (· < ·)) :
    (gridList2 xs (y0 :: ys) z0).countP (fun p => p.y == y0) = xs.length := by
  unfold gridList2
  rw [List.countP_flatMap]
  have hblock : ∀ x ∈ xs,
      (List.countP (fun p => p.y == y0) ∘
        fun x => (y0 :: ys).map (fun y => Point.mk x y z0)) x = 1 := by
    intro x _
    show ((y0 :: ys).map (fun y => Point.mk x y z0)).countP (fun p => p.y == y0) = 1
    rw [List.countP_map, List.countP_cons]
    have hz : List.countP ((fun p => p.y == y0) ∘ fun y => Point.mk x y z0) ys = 0 := by
      rw [List.countP_eq_zero]
      intro y hyy
      have : y0 < y := (List.pairwise_cons.mp hy).1 y hyy
      show ¬(y == y0) = true
      simp only [beq_iff_eq]
      omega
    rw [hz]
    simp
  rw [List.map_congr_left (g := fun _ => 1) hblock, sum_map_const, Nat.mul_one]

theorem gridList2_countP_x {x0 : Int} {xs ys : List Int} {z0 : Int}
    (hx : (x0 :: xs).Pairwise (· < ·)) :
    (gridList2 (x0 :: xs) ys z0).countP (fun p => p.x == x0) = ys.length := by
  unfold gridList2
  rw [List.flatMap_cons, List.countP_append]
  have h1 : (ys.map (fun y => Point.mk x0 y z0)).countP (fun p => p.x == x0) =
      ys.length := by
    rw [List.countP_map, List.countP_eq_length]
    intro y _
    show (x0 == x0) = true
    simp
  have h2 : (xs.flatMap (fun x => ys.map (fun y => Point.mk x y z0))).countP
      (fun p => p.x == x0) = 0 := by
    rw [List.countP_eq_zero]
    intro p hp
    obtain ⟨x, hxx, hmem⟩ := List.mem_flatMap.mp hp
    obtain ⟨y, _, rfl⟩ := List.mem_map.mp hmem
    have : x0 < x := (List.pairwise_cons.mp hx).1 x hxx
    show ¬(x == x0) = true
    simp only [beq_iff_eq]
    omega
  rw [h1, h2, Nat.add_zero]

theorem inferShape2d_grid {x0 y0 z0 : Int} {xs ys : List Int}
    (hx : (x0 :: xs).Pairwise (· < ·)) (hy : (y0 :: ys).Pairwise (· < ·)) :
    inferShape2d (Point.mk x0 y0 z0) (gridList2 (x0 :: xs) (y0 :: ys) z0) =
      (xs.length + 1, ys.length + 1) := by
  unfold inferShape2d
  rw [← List.countP_eq_length_filter, ← List.countP_eq_length_filter]
  show ((gridList2 (x0 :: xs) (y0 :: ys) z0).countP (fun p => p.y == y0),
        (gridList2 (x0 :: xs) (y0 :: ys) z0).countP (fun p => p.x == x0)) = _
  rw [gridList2_countP_y hy, gridList2_countP_x hx, List.length_cons,
    List.length_cons]

theorem gridList2_cons (x0 : Int) (xs : List Int) (y0 : Int) (ys : List Int)
    (z0 : Int) :
    gridList2 (x0 :: xs) (y0 :: ys) z0 =
      Point.mk x0 y0 z0 ::
        (ys.map (fun y => Point.mk x0 y z0) ++ gridList2 xs (y0 :: ys) z0) := by
  unfold gridList2
  rw [List.flatMap_cons, List.map_cons, List.cons_append]

theorem gridList3_length (xs ys zs : List Int) :
    (gridList3 xs ys zs).length = xs.length * (ys.length * zs.length) := by
  unfold gridList3
  rw [List.length_flatMap, List.map_congr_left
    (g := fun _ => ys.length * zs.length) ?_, sum_map_const]
  intro x _
  show (ys.flatMap (fun y => zs.map (fun z => Point.mk x y z))).length = _
  rw [List.length_flatMap, List.map_congr_left
    (g := fun _ => zs.length) (fun y _ => by simp), sum_map_const]

theorem gridList3_sorted {xs ys zs : List Int}
    (hx : xs.Pairwise (· < ·)) (hy : ys.Pairwise (· < ·))
    (hz : zs.Pairwise (· < ·)) :
    (gridList3 xs ys zs).Pairwise Point.le := by
  unfold gridList3
  rw [List.pairwise_flatMap]
  constructor
  · intro x _
    rw [List.pairwise_flatMap]
    constructor
    · intro y _
      rw [List.pairwise_map]
      exact hz.imp (fun hab => Or.inr ⟨rfl, Or.inr ⟨rfl, le_of_lt hab⟩⟩)
    · refine hy.imp ?_
      intro a b hab p hp q hq
      obtain ⟨za, _, rfl⟩ := List.mem_map.mp hp
      obtain ⟨zb, _, rfl⟩ := List.mem_map.mp hq
      exact Or.inr ⟨rfl, Or.inl hab⟩
  · refine hx.imp ?_
    intro a b hab p hp q hq
    obtain ⟨ya, _, hpy⟩ := List.mem_flatMap.mp hp
    obtain ⟨za, _, rfl⟩ := List.mem_map.mp hpy
    obtain ⟨yb, _, hqy⟩ := List.mem_flatMap.mp hq
    obtain ⟨zb, _, rfl⟩ := List.mem_map.mp hqy
    exact Or.inl hab

theorem gridList3_countP_x {xs : List Int} {y0 z0 : Int} {ys zs : List Int}
    (hy : (y0 :: ys).Pairwise (· < ·)) (hz : (z0 :: zs).Pairwise (· < ·)) :
    (gridList3 xs (y0 :: ys) (z0 :: zs)).countP
      (fun p => p.y == y0 && p.z == z0) = xs.length := by
  unfold gridList3
  rw [List.countP_flatMap]
  have hblock : ∀ x ∈ xs,
      (List.countP (fun p => p.y == y0 && p.z == z0) ∘
        fun x => (y0 :: ys).flatMap (fun y => (z0 :: zs).map
          (fun z => Point.mk x y z))) x = 1 := by
    intro x _
    show ((y0 :: ys).flatMap (fun y => (z0 :: zs).map
      (fun z => Point.mk x y z))).countP (fun p => p.y == y0 && p.z == z0) = 1
    rw [List.flatMap_cons, List.countP_append]
    have h1 : ((z0 :: zs).map (fun z => Point.mk x y0 z)).countP
        (fun p => p.y == y0 && p.z == z0) = 1 := by
      rw [List.countP_map, List.countP_cons]
      have hrest : List.countP ((fun p => p.y == y0 && p.z == z0) ∘
          fun z => Point.mk x y0 z) zs = 0 := by
        rw [List.countP_eq_zero]
        intro z hzz
        have : z0 < z := (List.pairwise_cons.mp hz).1 z hzz
        show ¬((y0 == y0) && (z == z0)) = true
        simp only [beq_iff_eq, Bool.and_eq_true, decide_eq_true_eq]
        omega
      rw [hrest]
      simp
    have h2 : (ys.flatMap (fun y => (z0 :: zs).map
        (fun z => Point.mk x y z))).countP
        (fun p => p.y == y0 && p.z == z0) = 0 := by
      rw [List.countP_eq_zero]
      intro p hp
      obtain ⟨y, hyy, hmem⟩ := List.mem_flatMap.mp hp
      obtain ⟨z, _, rfl⟩ := List.mem_map.mp hmem
      have : y0 < y := (List.pairwise_cons.mp hy).1 y hyy
      show ¬((y == y0) && (z == z0)) = true
      simp only [beq_iff_eq, Bool.and_eq_true]
      intro hand
      omega
    rw [h1, h2]
  rw [List.map_congr_left (g := fun _ => 1) hblock, sum_map_const, Nat.mul_one]

theorem gridList3_countP_y {x0 z0 : Int} {xs ys zs : List Int}
    (hx : (x0 :: xs).Pairwise (· < ·)) (hz : (z0 :: zs).Pairwise (· < ·)) :
    (gridList3 (x0 :: xs) ys (z0 :: zs)).countP
      (fun p => p.x == x0 && p.z == z0) = ys.length := by
  unfold gridList3
  rw [List.flatMap_cons, List.countP_append]
  have h1 : (ys.flatMap (fun y => (z0 :: zs).map
      (fun z => Point.mk x0 y z))).countP
      (fun p => p.x == x0 && p.z == z0) = ys.length := by
    rw [List.countP_flatMap]
    have hblock : ∀ y ∈ ys,
        (List.countP (fun p => p.x == x0 && p.z == z0) ∘
          fun y => (z0 :: zs).map (fun z => Point.mk x0 y z)) y = 1 := by
      intro y _
      show ((z0 :: zs).map (fun z => Point.mk x0 y z)).countP
        (fun p => p.x == x0 && p.z == z0) = 1
      rw [List.countP_map, List.countP_cons]
      have hrest : List.countP ((fun p => p.x == x0 && p.z == z0) ∘
          fun z => Point.mk x0 y z) zs = 0 := by
        rw [List.countP_eq_zero]
        intro z hzz
        have : z0 < z := (List.pairwise_cons.mp hz).1 z hzz
        show ¬((x0 == x0) && (z == z0)) = true
        simp only [beq_iff_eq, Bool.and_eq_true, decide_eq_true_eq]
        omega
      rw [hrest]
      simp
    rw [List.map_congr_left (g := fun _ => 1) hblock, sum_map_const, Nat.mul_one]
  have h2 : (xs.flatMap (fun x => ys.flatMap (fun y => (z0 :: zs).map
      (fun z => Point.mk x y z)))).countP
      (fun p => p.x == x0 && p.z == z0) = 0 := by
    rw [List.countP_eq_zero]
    intro p hp
    obtain ⟨x, hxx, hmem⟩ := List.mem_flatMap.mp hp
    obtain ⟨y, _, hmem2⟩ := List.mem_flatMap.mp hmem
    obtain ⟨z, _, rfl⟩ := List.mem_map.mp hmem2
    have : x0 < x := (List.pairwise_cons.mp hx).1 x hxx
    show ¬((x == x0) && (z == z0)) = true
    simp only [beq_iff_eq, Bool.and_eq_true]
    intro hand
    omega
  rw [h1, h2, Nat.add_zero]

theorem gridList3_countP_z {x0 y0 : Int} {xs ys zs : List Int}
    (hx : (x0 :: xs).Pairwise (· < ·)) (hy : (y0 :: ys).Pairwise (· < ·)) :
    (gridList3 (x0 :: xs) (y0 :: ys) zs).countP
      (fun p => p.x == x0 && p.y == y0) = zs.length := by
  unfold gridList3
  rw [List.flatMap_cons, List.countP_append, List.flatMap_cons,
    List.countP_append]
  have h1 : (zs.map (fun z => Point.mk x0 y0 z)).countP
      (fun p => p.x == x0 && p.y == y0) = zs.length := by
    rw [List.countP_map, List.countP_eq_length]
    intro z _
    show ((x0 == x0) && (y0 == y0)) = true
    simp
  have h2 : (ys.flatMap (fun y => zs.map (fun z => Point.mk x0 y z))).countP
      (fun p => p.x == x0 && p.y == y0) = 0 := by
    rw [List.countP_eq_zero]
    intro p hp
    obtain ⟨y, hyy, hmem⟩ := List.mem_flatMap.mp hp
    obtain ⟨z, _, rfl⟩ := List.mem_map.mp hmem
    have : y0 < y := (List.pairwise_cons.mp hy).1 y hyy
    show ¬((x0 == x0) && (y == y0)) = true
    simp only [beq_iff_eq, Bool.and_eq_true]
    intro hand
    omega
  have h3 : (xs.flatMap (fun x => (y0 :: ys).flatMap (fun y => zs.map
      (fun z => Point.mk x y z)))).countP
      (fun p => p.x == x0 && p.y == y0) = 0 := by
    rw [List.countP_eq_zero]
    intro p hp
    obtain ⟨x, hxx, hmem⟩ := List.mem_flatMap.mp hp
    obtain ⟨y, _, hmem2⟩ := List.mem_flatMap.mp hmem
    obtain ⟨z, _, rfl⟩ := List.mem_map.mp hmem2
    have : x0 < x := (List.pairwise_cons.mp hx).1 x hxx
    show ¬((x == x0) && (y == y0)) = true
    simp only [beq_iff_eq, Bool.and_eq_true]
    intro hand
    omega
  rw [h1, h2, h3]
  omega

theorem inferShape3d_grid {x0 y0 z0 : Int} {xs ys zs : List Int}
    (hx : (x0 :: xs).Pairwise (· < ·)) (hy : (y0 :: ys).Pairwise (· < ·))
    (hz : (z0 :: zs).Pairwise (· < ·)) :
    inferShape3d (Point.mk x0 y0 z0) (gridList3 (x0 :: xs) (y0 :: ys) (z0 :: zs)) =
      (xs.length + 1, ys.length + 1, zs.length + 1) := by
  unfold inferShape3d
  rw [← List.countP_eq_length_filter, ← List.countP_eq_length_filter,
    ← List.countP_eq_length_filter]
  show ((gridList3 (x0 :: xs) (y0 :: ys) (z0 :: zs)).countP
          (fun p => p.y == y0 && p.z == z0),
        (gridList3 (x0 :: xs) (y0 :: ys) (z0 :: zs)).countP
          (fun p => p.x == x0 && p.z == z0),
        (gridList3 (x0 :: xs) (y0 :: ys) (z0 :: zs)).countP
          (fun p => p.x == x0 && p.y == y0)) = _
  rw [gridList3_countP_x hy hz, gridList3_countP_y hx hz,
    gridList3_countP_z hx hy, List.length_cons, List.length_cons,
    List.length_cons]

theorem gridList3_cons (x0 y0 z0 : Int) (xs ys zs : List Int) :
    gridList3 (x0 :: xs) (y0 :: ys) (z0 :: zs) =
      Point.mk x0 y0 z0 ::
        ((zs.map (fun z => Point.mk x0 y0 z) ++
          ys.flatMap (fun y => (z0 :: zs).map (fun z => Point.mk x0 y z))) ++
          gridList3 xs (y0 :: ys) (z0 :: zs)) := by
  unfold gridList3
  rw [List.flatMap_cons, List.flatMap_cons, List.map_cons, List.cons_append,
    List.cons_append]

/-! Helper lemmas for the 2D/3D round-trip claims. -/

theorem to_numpy_2d_eq {sol : Solution} {names : List String}
    {pts : List Point} {data : List (List Int)} {p0 : Point} {rest : List Point}
    (h : to_numpy_point_list sol names = .ok (pts, data))
    (hp : pts = p0 :: rest) :
    to_numpy_2d sol names = (do
      let pgrid ← npReshape2 (inferShape2d p0 pts).1 (inferShape2d p0 pts).2 pts
      let dgrid ← npReshape3 names.length (inferShape2d p0 pts).1
        (inferShape2d p0 pts).2 data.flatten
      pure (pgrid, dgrid)) := by
  subst hp
  unfold to_numpy_2d
  conv_lhs => rw [h]
  rfl

theorem to_numpy_3d_eq {sol : Solution} {names : List String}
    {pts : List Point} {data : List (List Int)} {p0 : Point} {rest : List Point}
    (h : to_numpy_point_list sol names = .ok (pts, data))
    (hp : pts = p0 :: rest) :
    to_numpy_3d sol names = (do
      let pgrid ← npReshape3 (inferShape3d p0 pts).1 (inferShape3d p0 pts).2.1
        (inferShape3d p0 pts).2.2 pts
      let dgrid ← npReshape4 names.length (inferShape3d p0 pts).1
        (inferShape3d p0 pts).2.1 (inferShape3d p0 pts).2.2 data.flatten
      pure (pgrid, dgrid)) := by
  subst hp
  unfold to_numpy_3d
  conv_lhs => rw [h]
  rfl

theorem chunks_chunks_getElem {α : Type} {a b c : Nat} {xs : List α}
    (h : xs.length = a * (b * c)) (i j k : Nat) (hj : j < b) (hk : k < c) :
    ((((chunks a (b * c) xs).map (chunks b c))[i]?.bind fun s => s[j]?).bind
      fun r => r[k]?) = xs[i * (b * c) + (j * c + k)]? := by
  have hbound : j * c + k < b * c := by
    have h1 : j * c + k < (j + 1) * c := by
      rw [Nat.succ_mul]
      omega
    have h2 : (j + 1) * c ≤ b * c := Nat.mul_le_mul_right c (by omega)
    omega
  have houter := chunks_getElem h i (j * c + k) hbound
  rw [← houter, List.getElem?_map]
  cases ho : (chunks a (b * c) xs)[i]? with
  | none => rfl
  | some s =>
    have hs : s.length = b * c :=
      mem_chunks_length h s (List.getElem?_mem ho)
    show (((chunks b c s)[j]?).bind fun r => r[k]?) = s[j * c + k]?
    exact chunks_getElem hs j k hk

theorem data_flatten_length {data : List (List Int)} {C N : Nat}
    (hlen : data.length = C) (hrows : ∀ row ∈ data, row.length = N) :
    data.flatten.length = C * N := by
  rw [List.length_flatten, List.map_congr_left (g := fun _ => N) hrows,
    sum_map_const, hlen]

theorem to_numpy_2d_of_grid {sol : Solution} {names : List String}
    {x0 y0 z0 : Int} {xs ys : List Int} {pts : List Point}
    {data : List (List Int)}
    (hx : (x0 :: xs).Pairwise (· < ·)) (hy : (y0 :: ys).Pairwise (· < ·))
    (hperm : sol.cellCenters.Perm (gridList2 (x0 :: xs) (y0 :: ys) z0))
    (h : to_numpy_point_list sol names = .ok (pts, data)) :
    pts = gridList2 (x0 :: xs) (y0 :: ys) z0 ∧
    pts.length = (xs.length + 1) * (ys.length + 1) ∧
    data.length = names.length ∧
    (∀ row ∈ data, row.length = (xs.length + 1) * (ys.length + 1)) ∧
    to_numpy_2d sol names =
      .ok (chunks (xs.length + 1) (ys.length + 1) pts,
           data.map (chunks (xs.length + 1) (ys.length + 1))) := by
  obtain ⟨hpts, hlen, hrows⟩ := to_numpy_point_list_ok h
  have hg : pts = gridList2 (x0 :: xs) (y0 :: ys) z0 :=
    hpts.trans (sortPoints_eq_of_perm hperm (gridList2_sorted hx hy))
  have hNpts : pts.length = (xs.length + 1) * (ys.length + 1) := by
    rw [hg, gridList2_length, List.length_cons, List.length_cons]
  have hNcc : sol.cellCenters.length = (xs.length + 1) * (ys.length + 1) := by
    rw [← to_numpy_point_list_ok_length h, hNpts]
  have hrowsN : ∀ row ∈ data, row.length = (xs.length + 1) * (ys.length + 1) :=
    fun row hr => by rw [hrows row hr, hNcc]
  refine ⟨hg, hNpts, hlen, hrowsN, ?_⟩
  have hcons : pts = Point.mk x0 y0 z0 ::
      (ys.map (fun y => Point.mk x0 y z0) ++ gridList2 xs (y0 :: ys) z0) := by
    rw [hg, gridList2_cons]
  have hshape : inferShape2d (Point.mk x0 y0 z0) pts =
      (xs.length + 1, ys.length + 1) := by
    rw [hg]
    exact inferShape2d_grid hx hy
  rw [to_numpy_2d_eq h hcons, hshape]
  have hres2 : npReshape2 (xs.length + 1) (ys.length + 1) pts =
      .ok (chunks (xs.length + 1) (ys.length + 1) pts) := by
    unfold npReshape2
    rw [if_pos hNpts.symm]
  have hflat : data.flatten.length =
      names.length * ((xs.length + 1) * (ys.length + 1)) :=
    data_flatten_length hlen hrowsN
  have hres3 : npReshape3 names.length (xs.length + 1) (ys.length + 1)
      data.flatten = .ok (data.map (chunks (xs.length + 1) (ys.length + 1))) := by
    unfold npReshape3
    rw [if_pos hflat.symm]
    have hch : chunks names.length ((xs.length + 1) * (ys.length + 1))
        data.flatten = data := by
      rw [← hlen]
      exact chunks_flatten_uniform hrowsN
    rw [hch]
  rw [hres2, hres3]
  rfl

theorem to_numpy_3d_of_grid {sol : Solution} {names : List String}
    {x0 y0 z0 : Int} {xs ys zs : List Int} {pts : List Point}
    {data : List (List Int)}
    (hx : (x0 :: xs).Pairwise (· < ·)) (hy : (y0 :: ys).Pairwise (· < ·))
    (hz : (z0 :: zs).Pairwise (· < ·))
    (hperm : sol.cellCenters.Perm (gridList3 (x0 :: xs) (y0 :: ys) (z0 :: zs)))
    (h : to_numpy_point_list sol names = .ok (pts, data)) :
    pts = gridList3 (x0 :: xs) (y0 :: ys) (z0 :: zs) ∧
    pts.length = (xs.length + 1) * ((ys.length + 1) * (zs.length + 1)) ∧
    data.length = names.length ∧
    (∀ row ∈ data,
      row.length = (xs.length + 1) * ((ys.length + 1) * (zs.length + 1))) ∧
    to_numpy_3d sol names =
      .ok ((chunks (xs.length + 1) ((ys.length + 1) * (zs.length + 1)) pts).map
             (chunks (ys.length + 1) (zs.length + 1)),
           data.map (fun row =>
             (chunks (xs.length + 1) ((ys.length + 1) * (zs.length + 1)) row).map
               (chunks (ys.length + 1) (zs.length + 1)))) := by
  obtain ⟨hpts, hlen, hrows⟩ := to_numpy_point_list_ok h
  have hg : pts = gridList3 (x0 :: xs) (y0 :: ys) (z0 :: zs) :=
    hpts.trans (sortPoints_eq_of_perm hperm (gridList3_sorted hx hy hz))
  have hNpts : pts.length =
      (xs.length + 1) * ((ys.length + 1) * (zs.length + 1)) := by
    rw [hg, gridList3_length, List.length_cons, List.length_cons,
      List.length_cons]
  have hNcc : sol.cellCenters.length =
      (xs.length + 1) * ((ys.length + 1) * (zs.length + 1)) := by
    rw [← to_numpy_point_list_ok_length h, hNpts]
  have hrowsN : ∀ row ∈ data,
      row.length = (xs.length + 1) * ((ys.length + 1) * (zs.length + 1)) :=
    fun row hr => by rw [hrows row hr, hNcc]
  refine ⟨hg, hNpts, hlen, hrowsN, ?_⟩
  have hcons : pts = Point.mk x0 y0 z0 ::
      ((zs.map (fun z => Point.mk x0 y0 z) ++
        ys.flatMap (fun y => (z0 :: zs).map (fun z => Point.mk x0 y z))) ++
        gridList3 xs (y0 :: ys) (z0 :: zs)) := by
    rw [hg, gridList3_cons]
  have hshape : inferShape3d (Point.mk x0 y0 z0) pts =
      (xs.length + 1, ys.length + 1, zs.length + 1) := by
    rw [hg]
    exact inferShape3d_grid hx hy hz
  rw [to_numpy_3d_eq h hcons, hshape]
  have hres3 : npReshape3 (xs.length + 1) (ys.length + 1) (zs.length + 1) pts =
      .ok ((chunks (xs.length + 1) ((ys.length + 1) * (zs.length + 1)) pts).map
        (chunks (ys.length + 1) (zs.length + 1))) := by
    unfold npReshape3
    rw [if_pos hNpts.symm]
  have hflat : data.flatten.length = names.length *
      ((xs.length + 1) * ((ys.length + 1) * (zs.length + 1))) :=
    data_flatten_length hlen hrowsN
  have hres4 : npReshape4 names.length (xs.length + 1) (ys.length + 1)
      (zs.length + 1) data.flatten =
      .ok (data.map (fun row =>
        (chunks (xs.length + 1) ((ys.length + 1) * (zs.length + 1)) row).map
          (chunks (ys.length + 1) (zs.length + 1)))) := by
    unfold npReshape4
    rw [if_pos hflat.symm]
    have hch : chunks names.length
        ((xs.length + 1) * ((ys.length + 1) * (zs.length + 1)))
        data.flatten = data := by
      rw [← hlen]
      exact chunks_flatten_uniform hrowsN
    rw [hch]
  rw [hres3, hres4]
  rfl

/-! Claim theorems. -/

/-- C2: for every point list, the Coordinate Sorter (`np.lexsort` on the
(z, y, x) key columns, line 116) produces a permutation of the sample
indices whose applied result is ordered lexicographically with x as the
primary key, y secondary, z tertiary; the sort is stable for exact
coordinate ties — the subsequence of index/point pairs carrying any fixed
coordinate value is passed through verbatim, hence the result is
deterministic — and sorting an already-sorted list returns it unchanged
(idempotence). -/
theorem coordinate_sorter_spec (P : List Point) :
    (sorted_indices P).Perm (List.range P.length) ∧
    applyPerm (sorted_indices P) P = sortPoints P ∧
    (sortPoints P).Sorted Point.le ∧
    (∀ q : Point, (sortedEnum P).filter (fun e => e.2 == q) =
      P.enum.filter (fun e => e.2 == q)) ∧
    sortPoints (sortPoints P) = sortPoints P ∧
    (P.Sorted Point.le → sortPoints P = P) :=
  ⟨sorted_indices_perm_range P, applyPerm_sorted_indices P, sorted_sortPoints P,
    fun q => sortedEnum_filter_key P q, sortPoints_idem P,
    fun h => sortPoints_of_sorted h⟩

theorem coordinate_sorter_spec_witness :
    sortPoints [Point.mk 0 0 0, Point.mk 1 0 0] =
      [Point.mk 0 0 0, Point.mk 1 0 0] :=
  (coordinate_sorter_spec [Point.mk 0 0 0, Point.mk 1 0 0]).2.2.2.2.2
    (by decide)

/-- C3: for a sorted point list, 2D shape inference returns `size_x` equal
to the count of points whose y equals the first point's y and `size_y`
equal to the count of points whose x equals the first point's x; 3D
inference returns the counts of points agreeing with the first point in
(y, z), (x, z) and (x, y) respectively.  On a separable sorted
Cartesian-product grid these counts are exactly the per-axis extents. -/
theorem shape_inference_counts_spec :
    (∀ (p0 : Point) (rest : List Point),
       inferShape2d p0 (p0 :: rest) =
         ((p0 :: rest).countP (fun p => p.y == p0.y),
          (p0 :: rest).countP (fun p => p.x == p0.x))) ∧
    (∀ (p0 : Point) (rest : List Point),
       inferShape3d p0 (p0 :: rest) =
         ((p0 :: rest).countP (fun p => p.y == p0.y && p.z == p0.z),
          (p0 :: rest).countP (fun p => p.x == p0.x && p.z == p0.z),
          (p0 :: rest).countP (fun p => p.x == p0.x && p.y == p0.y))) ∧
    (∀ (x0 y0 z0 : Int) (xs ys : List Int),
       (x0 :: xs).Pairwise (· < ·) → (y0 :: ys).Pairwise (· < ·) →
       inferShape2d (Point.mk x0 y0 z0) (gridList2 (x0 :: xs) (y0 :: ys) z0) =
         (xs.length + 1, ys.length + 1)) ∧
    (∀ (x0 y0 z0 : Int) (xs ys zs : List Int),
       (x0 :: xs).Pairwise (· < ·) → (y0 :: ys).Pairwise (· < ·) →
       (z0 :: zs).Pairwise (· < ·) →
       inferShape3d (Point.mk x0 y0 z0)
           (gridList3 (x0 :: xs) (y0 :: ys) (z0 :: zs)) =
         (xs.length + 1, ys.length + 1, zs.length + 1)) := by
  refine ⟨?_, ?_, ?_, ?_⟩
  · intro p0 rest
    unfold inferShape2d
    rw [List.countP_eq_length_filter, List.countP_eq_length_filter]
  · intro p0 rest
    unfold inferShape3d
    rw [List.countP_eq_length_filter, List.countP_eq_length_filter,
      List.countP_eq_length_filter]
  · intro x0 y0 z0 xs ys hx hy
    exact inferShape2d_grid hx hy
  · intro x0 y0 z0 xs ys zs hx hy hz
    exact inferShape3d_grid hx hy hz

theorem shape_inference_counts_spec_witness :
    inferShape2d (Point.mk 0 0 0) (gridList2 [0, 1] [0, 1, 2] 0) = (2, 3) ∧
    inferShape3d (Point.mk 0 0 0) (gridList3 [0, 1] [0, 1] [0, 1]) =
      (2, 2, 2) :=
  ⟨shape_inference_counts_spec.2.2.1 0 0 0 [1] [1, 2] (by decide) (by decide),
   shape_inference_counts_spec.2.2.2 0 0 0 [1] [1] [1] (by decide) (by decide)
     (by decide)⟩

/-- C6: the reshape step raises an error whenever the asserted or inferred
shape's element product differs from the sample count, and never
truncates or pads — a successful reshape flattens back to exactly the
input; in particular `to_numpy_2d` fails with the reshape error when the
inferred `size_x * size_y` differs from the number of samples. -/
theorem reshape_mismatch_spec :
    (∀ (α : Type) (a b : Nat) (xs : List α), a * b ≠ xs.length →
       npReshape2 a b xs = .error .reshapeError) ∧
    (∀ (α : Type) (a b : Nat) (xs : List α) (res : List (List α)),
       npReshape2 a b xs = .ok res → res.flatten = xs) ∧
    (∀ (α : Type) (a b c : Nat) (xs : List α), a * (b * c) ≠ xs.length →
       npReshape3 a b c xs = .error .reshapeError) ∧
    (∀ (α : Type) (a b c : Nat) (xs : List α) (res : List (List (List α))),
       npReshape3 a b c xs = .ok res → (res.map List.flatten).flatten = xs) ∧
    (∀ (sol : Solution) (names : List String) (pts : List Point)
       (data : List (List Int)) (p0 : Point) (rest : List Point),
       to_numpy_point_list sol names = .ok (pts, data) →
       pts = p0 :: rest →
       (inferShape2d p0 pts).1 * (inferShape2d p0 pts).2 ≠ pts.length →
       to_numpy_2d sol names = .error .reshapeError) := by
  refine ⟨?_, ?_, ?_, ?_, ?_⟩
  · intro α a b xs hne
    unfold npReshape2
    rw [if_neg hne]
  · intro α a b xs res h
    unfold npReshape2 at h
    by_cases hc : a * b = xs.length
    · rw [if_pos hc] at h
      rw [← Except.ok.inj h]
      exact flatten_chunks hc.symm
    · rw [if_neg hc] at h
      cases h
  · intro α a b c xs hne
    unfold npReshape3
    rw [if_neg hne]
  · intro α a b c xs res h
    unfold npReshape3 at h
    by_cases hc : a * (b * c) = xs.length
    · rw [if_pos hc] at h
      rw [← Except.ok.inj h, List.map_map, Function.comp_def,
        List.map_congr_left (g := fun s => s)
          (fun s hs => flatten_chunks (mem_chunks_length hc.symm s hs)),
        List.map_id_fun']
      exact flatten_chunks hc.symm
    · rw [if_neg hc] at h
      cases h
  · intro sol names pts data p0 rest h hp hne
    rw [to_numpy_2d_eq h hp]
    have herr : npReshape2 (inferShape2d p0 pts).1 (inferShape2d p0 pts).2 pts =
        .error .reshapeError := by
      unfold npReshape2
      rw [if_neg hne]
    rw [herr]
    rfl

/-- Concrete instance of C6 matching the spec scenario: 10 samples with an
inferred shape of (3, 3); 3 × 3 = 9 ≠ 10, so the reshape step, and with it
`to_numpy_2d`, raises the reshape error instead of truncating. -/
theorem reshape_mismatch_spec_witness :
    npReshape2 3 3 [0, 1, 2, 3, 4, 5, 6, 7, 8, (9 : Int)] =
      .error .reshapeError :=
  reshape_mismatch_spec.1 Int 3 3 [0, 1, 2, 3, 4, 5, 6, 7, 8, 9] (by decide)

/-- C1: for every sample set whose cell-centre points form a separable
Cartesian-product grid of `size_x × size_y` (resp.
`size_x × size_y × size_z`), 2D (resp. 3D) extraction succeeds, and
row-major flattening of the result in axis order x slowest to z fastest
exactly reproduces the sorted per-sample field values, with
`data[c][i][j]` (resp. `data[c][i][j][k]`) at the same flat sorted
position as `points[i][j]` (resp. `points[i][j][k]`). -/
theorem grid_roundtrip_spec :
    (∀ (sol : Solution) (names : List String) (x0 y0 z0 : Int)
       (xs ys : List Int) (pts : List Point) (data : List (List Int)),
       (x0 :: xs).Pairwise (· < ·) → (y0 :: ys).Pairwise (· < ·) →
       sol.cellCenters.Perm (gridList2 (x0 :: xs) (y0 :: ys) z0) →
       to_numpy_point_list sol names = .ok (pts, data) →
       ∃ pgrid dgrid,
         to_numpy_2d sol names = .ok (pgrid, dgrid) ∧
         pgrid.flatten = pts ∧
         dgrid.map List.flatten = data ∧
         (∀ i j : Nat, j < ys.length + 1 →
            (pgrid[i]?.bind fun r => r[j]?) = pts[i * (ys.length + 1) + j]?) ∧
         (∀ c i j : Nat, j < ys.length + 1 →
            ((dgrid[c]?.bind fun g => g[i]?).bind fun r => r[j]?) =
              (data[c]?.bind fun row => row[i * (ys.length + 1) + j]?))) ∧
    (∀ (sol : Solution) (names : List String) (x0 y0 z0 : Int)
       (xs ys zs : List Int) (pts : List Point) (data : List (List Int)),
       (x0 :: xs).Pairwise (· < ·) → (y0 :: ys).Pairwise (· < ·) →
       (z0 :: zs).Pairwise (· < ·) →
       sol.cellCenters.Perm (gridList3 (x0 :: xs) (y0 :: ys) (z0 :: zs)) →
       to_numpy_point_list sol names = .ok (pts, data) →
       ∃ pgrid dgrid,
         to_numpy_3d sol names = .ok (pgrid, dgrid) ∧
         (pgrid.map List.flatten).flatten = pts ∧
         dgrid.map (fun g => (g.map List.flatten).flatten) = data ∧
         (∀ i j k : Nat, j < ys.length + 1 → k < zs.length + 1 →
            ((pgrid[i]?.bind fun s => s[j]?).bind fun r => r[k]?) =
              pts[i * ((ys.length + 1) * (zs.length + 1)) +
                (j * (zs.length + 1) + k)]?) ∧
         (∀ c i j k : Nat, j < ys.length + 1 → k < zs.length + 1 →
            (((dgrid[c]?.bind fun g => g[i]?).bind fun s => s[j]?).bind
              fun r => r[k]?) =
              (data[c]?.bind fun row =>
                row[i * ((ys.length + 1) * (zs.length + 1)) +
                  (j * (zs.length + 1) + k)]?))) := by
  constructor
  · intro sol names x0 y0 z0 xs ys pts data hx hy hperm h
    obtain ⟨hg, hNpts, hlen, hrowsN, heq⟩ := to_numpy_2d_of_grid hx hy hperm h
    refine ⟨_, _, heq, flatten_chunks hNpts, ?_, ?_, ?_⟩
    · rw [List.map_map, Function.comp_def,
        List.map_congr_left (g := fun row => row)
          (fun row hr => flatten_chunks (hrowsN row hr)), List.map_id_fun']
      rfl
    · intro i j hj
      exact chunks_getElem hNpts i j hj
    · intro c i j hj
      rw [List.getElem?_map]
      cases hc : data[c]? with
      | none => rfl
      | some row =>
        have hrow := hrowsN row (List.getElem?_mem hc)
        show ((chunks (xs.length + 1) (ys.length + 1) row)[i]?.bind
          fun r => r[j]?) = row[i * (ys.length + 1) + j]?
        exact chunks_getElem hrow i j hj
  · intro sol names x0 y0 z0 xs ys zs pts data hx hy hz hperm h
    obtain ⟨hg, hNpts, hlen, hrowsN, heq⟩ := to_numpy_3d_of_grid hx hy hz hperm h
    refine ⟨_, _, heq, ?_, ?_, ?_, ?_⟩
    · rw [List.map_map, Function.comp_def,
        List.map_congr_left (g := fun s => s)
          (fun s hs => flatten_chunks (mem_chunks_length hNpts s hs)),
        List.map_id_fun']
      exact flatten_chunks hNpts
    · rw [List.map_map, Function.comp_def,
        List.map_congr_left (g := fun row => row) ?_, List.map_id_fun']
      · rfl
      intro row hr
      rw [List.map_map, Function.comp_def,
        List.map_congr_left (g := fun s => s)
          (fun s hs => flatten_chunks (mem_chunks_length (hrowsN row hr) s hs)),
        List.map_id_fun']
      show (chunks (xs.length + 1) ((ys.length + 1) * (zs.length + 1)) row).flatten = row
      exact flatten_chunks (hrowsN row hr)
    · intro i j k hj hk
      exact chunks_chunks_getElem hNpts i j k hj hk
    · intro c i j k hj hk
      rw [List.getElem?_map]
      cases hc : data[c]? with
      | none => rfl
      | some row =>
        have hrow := hrowsN row (List.getElem?_mem hc)
        show ((((chunks (xs.length + 1) ((ys.length + 1) * (zs.length + 1))
            row).map (chunks (ys.length + 1) (zs.length + 1)))[i]?.bind
            fun s => s[j]?).bind fun r => r[k]?) = _
        exact chunks_chunks_getElem hrow i j k hj hk

/-- Shuffled 2 × 3 Cartesian grid with field values 1..6 in sorted order. -/
def solC1a : Solution :=
  ⟨[], fun _ => none,
   [⟨1, 2, 0⟩, ⟨0, 0, 0⟩, ⟨1, 0, 0⟩, ⟨0, 1, 0⟩, ⟨1, 1, 0⟩, ⟨0, 2, 0⟩],
   fun nm => if nm = "f" then some (.scalar [6, 1, 4, 2, 5, 3]) else none⟩

/-- Shuffled 2 × 2 × 2 Cartesian grid with field values 1..8 in sorted
order. -/
def solC1b : Solution :=
  ⟨[], fun _ => none,
   [⟨1, 1, 1⟩, ⟨0, 0, 0⟩, ⟨1, 0, 1⟩, ⟨0, 1, 0⟩, ⟨1, 0, 0⟩, ⟨0, 0, 1⟩,
    ⟨1, 1, 0⟩, ⟨0, 1, 1⟩],
   fun nm => if nm = "f" then some (.scalar [8, 1, 6, 3, 5, 2, 7, 4]) else none⟩

theorem grid_roundtrip_spec_witness :
    (∃ pgrid dgrid,
       to_numpy_2d solC1a ["f"] = .ok (pgrid, dgrid) ∧
       pgrid.flatten = gridList2 [0, 1] [0, 1, 2] 0 ∧
       dgrid.map List.flatten = [[1, 2, 3, 4, 5, 6]]) ∧
    (∃ pgrid dgrid,
       to_numpy_3d solC1b ["f"] = .ok (pgrid, dgrid) ∧
       (pgrid.map List.flatten).flatten = gridList3 [0, 1] [0, 1] [0, 1] ∧
       dgrid.map (fun g => (g.map List.flatten).flatten) =
         [[1, 2, 3, 4, 5, 6, 7, 8]]) := by
  constructor
  · obtain ⟨pgrid, dgrid, heq, hp, hd, _, _⟩ :=
      grid_roundtrip_spec.1 solC1a ["f"] 0 0 0 [1] [1, 2]
        (gridList2 [0, 1] [0, 1, 2] 0) [[1, 2, 3, 4, 5, 6]]
        (by decide) (by decide) (by decide) (by decide)
    exact ⟨pgrid, dgrid, heq, hp, hd⟩
  · obtain ⟨pgrid, dgrid, heq, hp, hd, _, _⟩ :=
      grid_roundtrip_spec.2 solC1b ["f"] 0 0 0 [1] [1] [1]
        (gridList3 [0, 1] [0, 1] [0, 1]) [[1, 2, 3, 4, 5, 6, 7, 8]]
        (by decide) (by decide) (by decide) (by decide) (by decide)
    exact ⟨pgrid, dgrid, heq, hp, hd⟩

/-! Helper lemmas for the Field Array Reader claims. -/

theorem strEndsWith_excl {name s t : String}
    (hs : strEndsWith name s = true)
    (h1 : ¬(s.data <:+ t.data)) (h2 : ¬(t.data <:+ s.data)) :
    strEndsWith name t = false := by
  by_contra hm
  rw [Bool.not_eq_false] at hm
  unfold strEndsWith at hs hm
  rw [List.isSuffixOf_iff_suffix] at hs hm
  rcases List.suffix_or_suffix_of_suffix hs hm with hc | hc
  · exact h1 hc
  · exact h2 hc

theorem fetchAndSelect_vector {cd : String → Option VtkArray} {si : List Nat}
    {base : String} {vals : List (Int × Int × Int)} (c : Nat)
    (hcd : cd base = some (.vector vals)) (hb : ∀ i ∈ si, i < vals.length) :
    fetchAndSelect cd si base (some c) =
      .ok (applyPerm si (vals.map
        (fun v => if c = 0 then v.1 else if c = 1 then v.2.1 else v.2.2))) := by
  unfold fetchAndSelect
  rw [hcd]
  show npIndex si (vals.map
    (fun v => if c = 0 then v.1 else if c = 1 then v.2.1 else v.2.2)) = _
  unfold npIndex
  rw [if_pos]
  rw [List.all_eq_true]
  intro i hi
  rw [List.length_map]
  simpa using hb i hi

theorem fetchAndSelect_scalar {cd : String → Option VtkArray} {si : List Nat}
    {name : String} {vals : List Int}
    (hcd : cd name = some (.scalar vals)) (hb : ∀ i ∈ si, i < vals.length) :
    fetchAndSelect cd si name none = .ok (applyPerm si vals) := by
  unfold fetchAndSelect
  rw [hcd]
  show npIndex si vals = _
  unfold npIndex
  rw [if_pos]
  rw [List.all_eq_true]
  intro i hi
  simpa using hb i hi

theorem readCellField_X {cd : String → Option VtkArray} {si : List Nat}
    {name : String} (h : strEndsWith name "_X" = true) :
    readCellField cd si name = fetchAndSelect cd si (strDropRight name 2) (some 0) := by
  unfold readCellField
  rw [if_neg (by rw [strEndsWith_excl h (by decide) (by decide)]; exact
    Bool.false_ne_true), if_pos h]

theorem readCellField_Y {cd : String → Option VtkArray} {si : List Nat}
    {name : String} (h : strEndsWith name "_Y" = true) :
    readCellField cd si name = fetchAndSelect cd si (strDropRight name 2) (some 1) := by
  unfold readCellField
  rw [if_neg (by rw [strEndsWith_excl h (by decide) (by decide)]; exact
      Bool.false_ne_true),
    if_neg (by rw [strEndsWith_excl h (by decide) (by decide)]; exact
      Bool.false_ne_true),
    if_pos h]

theorem readCellField_Z {cd : String → Option VtkArray} {si : List Nat}
    {name : String} (h : strEndsWith name "_Z" = true) :
    readCellField cd si name = fetchAndSelect cd si (strDropRight name 2) (some 2) := by
  unfold readCellField
  rw [if_neg (by rw [strEndsWith_excl h (by decide) (by decide)]; exact
      Bool.false_ne_true),
    if_neg (by rw [strEndsWith_excl h (by decide) (by decide)]; exact
      Bool.false_ne_true),
    if_neg (by rw [strEndsWith_excl h (by decide) (by decide)]; exact
      Bool.false_ne_true),
    if_pos h]

theorem readCellField_plain {cd : String → Option VtkArray} {si : List Nat}
    {name : String} (hm : strEndsWith name "_Magnitude" = false)
    (hX : strEndsWith name "_X" = false) (hY : strEndsWith name "_Y" = false)
    (hZ : strEndsWith name "_Z" = false) :
    readCellField cd si name = fetchAndSelect cd si name none := by
  unfold readCellField
  rw [if_neg (by rw [hm]; exact Bool.false_ne_true),
    if_neg (by rw [hX]; exact Bool.false_ne_true),
    if_neg (by rw [hY]; exact Bool.false_ne_true),
    if_neg (by rw [hZ]; exact Bool.false_ne_true)]

theorem to_numpy_point_list_ok_data {sol : Solution} {names : List String}
    {pts : List Point} {data : List (List Int)}
    (h : to_numpy_point_list sol names = .ok (pts, data)) :
    pts = applyPerm (sorted_indices sol.cellCenters) sol.cellCenters ∧
    mapExcept (readCellField sol.cellData (sorted_indices sol.cellCenters))
      names = .ok data := by
  unfold to_numpy_point_list at h
  dsimp only at h
  cases hm : mapExcept (readCellField sol.cellData
      (sorted_indices sol.cellCenters)) names with
  | error e =>
    rw [hm] at h
    cases h
  | ok rows =>
    rw [hm] at h
    have hpair := Except.ok.inj h
    exact ⟨(congrArg Prod.fst hpair).symm,
      congrArg Except.ok (congrArg Prod.snd hpair)⟩

/-- C4: a requested field name ending in `_X` / `_Y` / `_Z` is resolved by
stripping the suffix, fetching the base vector field, and selecting
component 0 / 1 / 2 respectively; any other name not ending in
`_Magnitude` is fetched directly as a scalar field; in both cases the
returned values are the raw column reordered by `sorted_indices` — the
same permutation that reorders the points — so sample correspondence is
preserved. -/
theorem field_reader_spec :
    (∀ (cd : String → Option VtkArray) (si : List Nat) (name : String)
       (vals : List (Int × Int × Int)),
       strEndsWith name "_X" = true →
       cd (strDropRight name 2) = some (.vector vals) →
       (∀ i ∈ si, i < vals.length) →
       readCellField cd si name = .ok (applyPerm si (vals.map (fun v => v.1)))) ∧
    (∀ (cd : String → Option VtkArray) (si : List Nat) (name : String)
       (vals : List (Int × Int × Int)),
       strEndsWith name "_Y" = true →
       cd (strDropRight name 2) = some (.vector vals) →
       (∀ i ∈ si, i < vals.length) →
       readCellField cd si name = .ok (applyPerm si (vals.map (fun v => v.2.1)))) ∧
    (∀ (cd : String → Option VtkArray) (si : List Nat) (name : String)
       (vals : List (Int × Int × Int)),
       strEndsWith name "_Z" = true →
       cd (strDropRight name 2) = some (.vector vals) →
       (∀ i ∈ si, i < vals.length) →
       readCellField cd si name = .ok (applyPerm si (vals.map (fun v => v.2.2)))) ∧
    (∀ (cd : String → Option VtkArray) (si : List Nat) (name : String)
       (vals : List Int),
       strEndsWith name "_Magnitude" = false →
       strEndsWith name "_X" = false → strEndsWith name "_Y" = false →
       strEndsWith name "_Z" = false →
       cd name = some (.scalar vals) →
       (∀ i ∈ si, i < vals.length) →
       readCellField cd si name = .ok (applyPerm si vals)) ∧
    (∀ (sol : Solution) (names : List String) (pts : List Point)
       (data : List (List Int)),
       to_numpy_point_list sol names = .ok (pts, data) →
       pts = applyPerm (sorted_indices sol.cellCenters) sol.cellCenters ∧
       ∀ (c : Nat) (name : String), names[c]? = some name →
         ∃ row, data[c]? = some row ∧
           readCellField sol.cellData (sorted_indices sol.cellCenters) name =
             .ok row) := by
  refine ⟨?_, ?_, ?_, ?_, ?_⟩
  · intro cd si name vals h hcd hb
    rw [readCellField_X h]
    exact fetchAndSelect_vector 0 hcd hb
  · intro cd si name vals h hcd hb
    rw [readCellField_Y h]
    exact fetchAndSelect_vector 1 hcd hb
  · intro cd si name vals h hcd hb
    rw [readCellField_Z h]
    exact fetchAndSelect_vector 2 hcd hb
  · intro cd si name vals hm hX hY hZ hcd hb
    rw [readCellField_plain hm hX hY hZ]
    exact fetchAndSelect_scalar hcd hb
  · intro sol names pts data h
    obtain ⟨hpts, hmap⟩ := to_numpy_point_list_ok_data h
    exact ⟨hpts, fun c name hc => (mapExcept_ok_forall hmap).2 c name hc⟩

/-- Concrete instance of C4 matching the spec scenario: a vector field `E`
with per-sample components (1,2,3) and (4,5,6); requesting `"E_X"`
returns exactly the first-component column, reordered by the same
permutation as the points. -/
def solC4 : Solution :=
  ⟨[], fun _ => none,
   [⟨1, 0, 0⟩, ⟨0, 0, 0⟩],
   fun nm => if nm = "E" then some (.vector [(1, 2, 3), (4, 5, 6)]) else none⟩

theorem field_reader_spec_witness :
    readCellField solC4.cellData (sorted_indices solC4.cellCenters) "E_X" =
      .ok [4, 1] ∧
    to_numpy_point_list solC4 ["E_X"] =
      .ok ([⟨0, 0, 0⟩, ⟨1, 0, 0⟩], [[4, 1]]) := by
  have h := field_reader_spec.1 solC4.cellData
    (sorted_indices solC4.cellCenters) "E_X" [(1, 2, 3), (4, 5, 6)]
    (by decide) (by decide) (by decide)
  rw [h]
  exact ⟨by decide, by decide⟩

/-! C5: the `_Magnitude` check. -/

theorem readCellField_magnitude {cd : String → Option VtkArray} {si : List Nat}
    {name : String} (h : strEndsWith name "_Magnitude" = true) :
    readCellField cd si name = .error (.magnitudeKeyError name) := by
  unfold readCellField
  rw [if_pos h]

theorem to_numpy_point_list_magnitude {sol : Solution} {name : String}
    {rest : List String} (h : strEndsWith name "_Magnitude" = true) :
    to_numpy_point_list sol (name :: rest) =
      .error (.magnitudeKeyError name) := by
  unfold to_numpy_point_list
  dsimp only
  rw [mapExcept_cons_error (readCellField_magnitude h)]
  rfl

theorem to_numpy_time_steps_magnitude {tsol : TimeSolution} {name : String}
    {rest : List String} {t : Int} {ts2 : List Int}
    (h : strEndsWith name "_Magnitude" = true) :
    to_numpy_time_steps tsol (name :: rest) (some (t :: ts2)) =
      .error (.magnitudeKeyError name) := by
  unfold to_numpy_time_steps
  dsimp only
  show (do
    let frames ← mapExcept
      (fun u => to_numpy_point_list (tsol.snap u) (name :: rest)) (t :: ts2)
    pure (t :: ts2, frames.map Prod.fst, frames.map Prod.snd) :
      Except NumpyError _) = _
  rw [mapExcept_cons_error
    (f := fun u => to_numpy_point_list (tsol.snap u) (name :: rest))
    (to_numpy_point_list_magnitude h)]
  rfl

/-- A concrete 1D dataset that stores an ordinary point-data array whose
name happens to end in `_Magnitude`. -/
def solC5 : Solution :=
  ⟨[⟨0, 0, 0⟩],
   fun nm => if nm = "f_Magnitude" then some (.scalar [7]) else none,
   [], fun _ => none⟩

/-- C5 counterexample: the claim says every extraction entry point —
including the 1D line entry point — raises an explicit
unsupported-operation error for a `_Magnitude`-suffixed name.  But
`to_numpy_1d` performs no magnitude check at all (lines 60-70 fetch the
requested name directly): on a data source carrying an array literally
named `f_Magnitude` it silently returns that array's values instead of
raising anything. -/
theorem magnitude_error_1d_counterexample :
    to_numpy_1d solC5 ["f_Magnitude"] 0 none none = .ok ([0], [[7]]) := by
  decide

/-- C5 (amended): every entry point that goes through the cell-data field
reader — point-list, 2D, 3D, and the three time-series variants — raises
the explicit `KeyError` for a `_Magnitude`-suffixed name immediately,
independent of whatever arrays the data source stores (so a magnitude is
never silently approximated there); the 1D entry point performs no such
check and fetches the requested name directly. -/
theorem magnitude_error_spec :
    ∀ name : String, strEndsWith name "_Magnitude" = true →
      (∀ (cd : String → Option VtkArray) (si : List Nat),
        readCellField cd si name = .error (.magnitudeKeyError name)) ∧
      (∀ (sol : Solution) (rest : List String),
        to_numpy_point_list sol (name :: rest) =
          .error (.magnitudeKeyError name) ∧
        to_numpy_2d sol (name :: rest) = .error (.magnitudeKeyError name) ∧
        to_numpy_3d sol (name :: rest) = .error (.magnitudeKeyError name)) ∧
      (∀ (tsol : TimeSolution) (rest : List String) (t : Int) (ts2 : List Int),
        to_numpy_time_steps tsol (name :: rest) (some (t :: ts2)) =
          .error (.magnitudeKeyError name) ∧
        to_numpy_time_steps_2d tsol (name :: rest) (some (t :: ts2)) =
          .error (.magnitudeKeyError name) ∧
        to_numpy_time_steps_3d tsol (name :: rest) (some (t :: ts2)) =
          .error (.magnitudeKeyError name)) := by
  intro name h
  refine ⟨fun cd si => readCellField_magnitude h, ?_, ?_⟩
  · intro sol rest
    refine ⟨to_numpy_point_list_magnitude h, ?_, ?_⟩
    · unfold to_numpy_2d
      rw [to_numpy_point_list_magnitude h]
      rfl
    · unfold to_numpy_3d
      rw [to_numpy_point_list_magnitude h]
      rfl
  · intro tsol rest t ts2
    refine ⟨to_numpy_time_steps_magnitude h, ?_, ?_⟩
    · unfold to_numpy_time_steps_2d
      rw [to_numpy_time_steps_magnitude h]
      rfl
    · unfold to_numpy_time_steps_3d
      rw [to_numpy_time_steps_magnitude h]
      rfl

theorem magnitude_error_spec_witness :
    to_numpy_point_list solC5 ["f_Magnitude"] =
      .error (.magnitudeKeyError "f_Magnitude") :=
  ((magnitude_error_spec "f_Magnitude" (by decide)).2.1 solC5 []).1

/-! Helper lemmas for the 1D path (C9, C10). -/

theorem maskFilter_cons_true {α : Type} {ms : List Bool} {x : α} {xs : List α} :
    maskFilter (true :: ms) (x :: xs) = x :: maskFilter ms xs := by
  unfold maskFilter
  rw [List.zip_cons_cons, List.filter_cons]
  rfl

theorem maskFilter_cons_false {α : Type} {ms : List Bool} {x : α} {xs : List α} :
    maskFilter (false :: ms) (x :: xs) = maskFilter ms xs := by
  unfold maskFilter
  rw [List.zip_cons_cons, List.filter_cons]
  rfl

theorem maskFilter_sublist {α : Type} :
    ∀ (mask : List Bool) (xs : List α), (maskFilter mask xs).Sublist xs := by
  intro mask
  induction mask with
  | nil =>
    intro xs
    exact List.nil_sublist xs
  | cons b ms ih =>
    intro xs
    cases xs with
    | nil => exact List.Sublist.refl []
    | cons x xs2 =>
      cases b with
      | true =>
        rw [maskFilter_cons_true]
        exact (ih xs2).cons₂ x
      | false =>
        rw [maskFilter_cons_false]
        exact (ih xs2).cons x

theorem maskFilter_map_self {α : Type} (p : α → Bool) :
    ∀ xs : List α, maskFilter (xs.map p) xs = xs.filter p := by
  intro xs
  induction xs with
  | nil => rfl
  | cons x xs ih =>
    rw [List.map_cons, List.filter_cons]
    cases hp : p x with
    | true =>
      rw [maskFilter_cons_true, ih]
      rfl
    | false =>
      rw [maskFilter_cons_false, ih]
      rfl

theorem maskFilter_all_true {α : Type} :
    ∀ {mask : List Bool} {xs : List α}, (∀ b ∈ mask, b = true) →
      mask.length = xs.length → maskFilter mask xs = xs := by
  intro mask
  induction mask with
  | nil =>
    intro xs _ hlen
    rw [List.eq_nil_of_length_eq_zero hlen.symm]
    rfl
  | cons b ms ih =>
    intro xs hb hlen
    cases xs with
    | nil => cases hlen
    | cons x xs2 =>
      have : b = true := hb b (List.mem_cons_self b ms)
      subst this
      rw [maskFilter_cons_true, ih (fun c hc => hb c (List.mem_cons_of_mem _ hc))
        (by simpa using hlen)]

theorem maskFilter_zip {α β : Type} :
    ∀ {mask : List Bool} {xs : List α} {ys : List β}, xs.length = ys.length →
      maskFilter mask (xs.zip ys) =
        (maskFilter mask xs).zip (maskFilter mask ys) := by
  intro mask
  induction mask with
  | nil => intro xs ys _; rfl
  | cons b ms ih =>
    intro xs ys hlen
    cases xs with
    | nil =>
      cases ys with
      | nil => rfl
      | cons y ys2 => cases hlen
    | cons x xs2 =>
      cases ys with
      | nil => cases hlen
      | cons y ys2 =>
        have hlen2 : xs2.length = ys2.length := by simpa using hlen
        rw [List.zip_cons_cons]
        cases b with
        | true =>
          rw [maskFilter_cons_true, maskFilter_cons_true, maskFilter_cons_true,
            List.zip_cons_cons, ih hlen2]
        | false =>
          rw [maskFilter_cons_false, maskFilter_cons_false,
            maskFilter_cons_false, ih hlen2]

theorem to_numpy_1d_ok_of_scalars {sol : Solution} {names : List String}
    {d : Fin 3} {mn mx : Option Int} (fieldVals : String → List Int)
    (hf : ∀ name ∈ names, sol.pointData name = some (.scalar (fieldVals name)))
    (hlen : ∀ name ∈ names, (fieldVals name).length = sol.points.length) :
    to_numpy_1d sol names d mn mx =
      .ok (maskFilter ((sol.points.map (coordAt d)).map (inBounds mn mx))
             (sol.points.map (coordAt d)),
           names.map (fun nm =>
             maskFilter ((sol.points.map (coordAt d)).map (inBounds mn mx))
               (fieldVals nm))) := by
  unfold to_numpy_1d
  dsimp only
  rw [mapExcept_ok_of_forall (g := fun nm =>
    maskFilter ((sol.points.map (coordAt d)).map (inBounds mn mx))
      (fieldVals nm)) ?_]
  · rfl
  intro name hn
  unfold readPointField
  rw [hf name hn]
  show (if (fieldVals name).length =
        ((sol.points.map (coordAt d)).map (inBounds mn mx)).length then
      Except.ok (maskFilter ((sol.points.map (coordAt d)).map (inBounds mn mx))
        (fieldVals name))
    else Except.error NumpyError.indexError) = _
  rw [if_pos]
  rw [hlen name hn, List.length_map, List.length_map]

/-- C10: 1D extraction accepts optional bounds `x_min` / `x_max` and keeps
exactly the samples whose x-coordinate lies in the (inclusive) bounds;
one boolean mask, computed from the x column, is applied both to the
x-values and to every requested field array, so retained x-values and
channel values come from the same original samples (masking commutes
with pairing); with no bounds all samples are returned. -/
theorem bounds_1d_spec :
    ∀ (sol : Solution) (names : List String) (d : Fin 3) (mn mx : Option Int)
      (fieldVals : String → List Int),
      (∀ name ∈ names, sol.pointData name = some (.scalar (fieldVals name))) →
      (∀ name ∈ names, (fieldVals name).length = sol.points.length) →
      to_numpy_1d sol names d mn mx =
        .ok (maskFilter ((sol.points.map (coordAt d)).map (inBounds mn mx))
               (sol.points.map (coordAt d)),
             names.map (fun nm =>
               maskFilter ((sol.points.map (coordAt d)).map (inBounds mn mx))
                 (fieldVals nm))) ∧
      maskFilter ((sol.points.map (coordAt d)).map (inBounds mn mx))
          (sol.points.map (coordAt d)) =
        (sol.points.map (coordAt d)).filter (inBounds mn mx) ∧
      (∀ v ∈ maskFilter ((sol.points.map (coordAt d)).map (inBounds mn mx))
          (sol.points.map (coordAt d)), inBounds mn mx v = true) ∧
      (∀ v : Int, inBounds mn mx v = true ↔
        ((∀ m, mn = some m → m ≤ v) ∧ (∀ m, mx = some m → v ≤ m))) ∧
      (∀ name ∈ names,
        maskFilter ((sol.points.map (coordAt d)).map (inBounds mn mx))
            ((sol.points.map (coordAt d)).zip (fieldVals name)) =
          (maskFilter ((sol.points.map (coordAt d)).map (inBounds mn mx))
             (sol.points.map (coordAt d))).zip
            (maskFilter ((sol.points.map (coordAt d)).map (inBounds mn mx))
              (fieldVals name))) ∧
      (mn = none → mx = none →
        to_numpy_1d sol names d mn mx =
          .ok (sol.points.map (coordAt d), names.map fieldVals)) := by
  intro sol names d mn mx fieldVals hf hlen
  refine ⟨to_numpy_1d_ok_of_scalars fieldVals hf hlen,
    maskFilter_map_self _ _, ?_, ?_, ?_, ?_⟩
  · intro v hv
    rw [maskFilter_map_self] at hv
    exact (List.mem_filter.mp hv).2
  · intro v
    cases mn <;> cases mx <;> simp [inBounds]
  · intro name hn
    exact maskFilter_zip (by rw [List.length_map, hlen name hn])
  · intro hmn hmx
    subst hmn
    subst hmx
    rw [to_numpy_1d_ok_of_scalars fieldVals hf hlen]
    have hmask : ∀ (xs : List Int),
        maskFilter (xs.map (inBounds none none)) xs = xs := by
      intro xs
      refine maskFilter_all_true ?_ (by rw [List.length_map])
      intro b hb
      obtain ⟨v, _, hv⟩ := List.mem_map.mp hb
      rw [← hv]
      rfl
    rw [hmask]
    congr 1
    congr 1
    refine List.map_congr_left ?_
    intro name hn
    refine maskFilter_all_true ?_ ?_
    · intro b hb
      obtain ⟨v, _, hv⟩ := List.mem_map.mp hb
      rw [← hv]
      rfl
    · rw [List.length_map, List.length_map, hlen name hn]

/-- Four samples at x = 0..3 with field values 10 x for the C10 witness. -/
def solC10 : Solution :=
  ⟨[⟨0, 0, 0⟩, ⟨1, 0, 0⟩, ⟨2, 0, 0⟩, ⟨3, 0, 0⟩],
   fun nm => if nm = "f" then some (.scalar [0, 10, 20, 30]) else none,
   [], fun _ => none⟩

theorem bounds_1d_spec_witness :
    to_numpy_1d solC10 ["f"] 0 (some 1) (some 2) = .ok ([1, 2], [[10, 20]]) ∧
    to_numpy_1d solC10 ["f"] 0 none none =
      .ok ([0, 1, 2, 3], [[0, 10, 20, 30]]) := by
  obtain ⟨h1, _, _, _, _, _⟩ := bounds_1d_spec solC10 ["f"] 0
    (some 1) (some 2) (fun _ => [0, 10, 20, 30]) (by decide) (by decide)
  obtain ⟨_, _, _, _, _, h4⟩ := bounds_1d_spec solC10 ["f"] 0
    none none (fun _ => [0, 10, 20, 30]) (by decide) (by decide)
  exact ⟨by rw [h1]; decide, by rw [h4 rfl rfl]; decide⟩

/-- Three samples whose x-coordinates arrive out of order. -/
def solC9 : Solution :=
  ⟨[⟨2, 0, 0⟩, ⟨0, 0, 0⟩, ⟨1, 0, 0⟩],
   fun nm => if nm = "f" then some (.scalar [20, 0, 10]) else none,
   [], fun _ => none⟩

/-- C9 counterexample: the claim says the 1D entry point, like every other
entry point, applies the Coordinate Sorter before returning.  But
`to_numpy_1d` never sorts: on a data source whose points arrive with
x-coordinates (2, 0, 1) it returns the x-values in exactly that unsorted
input order. -/
theorem order_1d_counterexample :
    to_numpy_1d solC9 ["f"] 0 none none = .ok ([2, 0, 1], [[20, 0, 10]]) ∧
    ¬ ([2, 0, 1] : List Int).Sorted (· ≤ ·) :=
  ⟨by decide, by decide⟩

/-- C9 (amended): 1D extraction performs no coordinate sort; it returns
the samples in the data source's original order — the returned x-values
are a mask-subsequence (hence order-preserving subsequence) of the input
x column, not its sorted reordering. -/
theorem order_1d_spec :
    ∀ (sol : Solution) (names : List String) (d : Fin 3) (mn mx : Option Int)
      (xs : List Int) (rows : List (List Int)),
      to_numpy_1d sol names d mn mx = .ok (xs, rows) →
      xs.Sublist (sol.points.map (coordAt d)) := by
  intro sol names d mn mx xs rows h
  unfold to_numpy_1d at h
  dsimp only at h
  cases hm : mapExcept (readPointField sol.pointData
      ((sol.points.map (coordAt d)).map (inBounds mn mx))) names with
  | error e =>
    rw [hm] at h
    cases h
  | ok rows2 =>
    rw [hm] at h
    have hpair := Except.ok.inj h
    have hxs : xs = maskFilter
        ((sol.points.map (coordAt d)).map (inBounds mn mx))
        (sol.points.map (coordAt d)) := (congrArg Prod.fst hpair).symm
    rw [hxs]
    exact maskFilter_sublist _ _

theorem order_1d_spec_witness :
    ([2, 0, 1] : List Int).Sublist (solC9.points.map (coordAt 0)) :=
  order_1d_spec solC9 ["f"] 0 none none [2, 0, 1] [[20, 0, 10]] (by decide)

/-! Helper lemmas for the time-series claims (C7, C8). -/

theorem to_numpy_time_steps_ok_of_forall {tsol : TimeSolution}
    {names : List String} {tsArg : Option (List Int)} {tl : List Int}
    (framePts : Int → List Point) (frameData : Int → List (List Int))
    (hts : effectiveTimeSteps tsol tsArg = tl)
    (hframe : ∀ t ∈ tl, to_numpy_point_list (tsol.snap t) names =
      .ok (framePts t, frameData t)) :
    to_numpy_time_steps tsol names tsArg =
      .ok (tl, tl.map framePts, tl.map frameData) := by
  unfold to_numpy_time_steps
  dsimp only
  rw [hts, mapExcept_ok_of_forall (g := fun t => (framePts t, frameData t))
    hframe]
  show Except.ok (tl, ((tl.map fun t => (framePts t, frameData t)).map Prod.fst),
    ((tl.map fun t => (framePts t, frameData t)).map Prod.snd)) = _
  rw [List.map_map, List.map_map]
  rfl

/-- The tail of `to_numpy_time_steps_2d` after the per-frame collection:
`points = points[0]`, `np.array(data)`, frame-0 shape inference and the
two reshapes.  Factored out to reason about the pipeline stages. -/
def timeSteps2dPost (names : List String) (tl : List Int)
    (pointsArr : List (List Point)) (dataArr : List (List (List Int))) :
    Except NumpyError
      (List Int × List (List Point) × List (List (List (List Int)))) := do
  let points ← match pointsArr with
    | [] => Except.error NumpyError.indexError
    | p :: _ => Except.ok p
  let stacked ← npStack dataArr
  match points with
  | [] => .error .indexError
  | p0 :: _ =>
    let size_x := (inferShape2d p0 points).1
    let size_y := (inferShape2d p0 points).2
    do
    let pgrid ← npReshape2 size_x size_y points
    let dgrid ← npReshape4 tl.length names.length size_x size_y
      ((stacked.map List.flatten).flatten)
    pure (tl, pgrid, dgrid)

/-- The tail of `to_numpy_time_steps_3d` after the per-frame collection. -/
def timeSteps3dPost (names : List String) (tl : List Int)
    (pointsArr : List (List Point)) (dataArr : List (List (List Int))) :
    Except NumpyError
      (List Int × List (List (List Point)) ×
       List (List (List (List (List Int))))) := do
  let points ← match pointsArr with
    | [] => Except.error NumpyError.indexError
    | p :: _ => Except.ok p
  let stacked ← npStack dataArr
  match points with
  | [] => .error .indexError
  | p0 :: _ =>
    let size_x := (inferShape3d p0 points).1
    let size_y := (inferShape3d p0 points).2.1
    let size_z := (inferShape3d p0 points).2.2
    do
    let pgrid ← npReshape3 size_x size_y size_z points
    let dgrid ← npReshape5 tl.length names.length size_x size_y size_z
      ((stacked.map List.flatten).flatten)
    pure (tl, pgrid, dgrid)

theorem to_numpy_time_steps_2d_eq {tsol : TimeSolution} {names : List String}
    {tsArg : Option (List Int)} {tl : List Int} {pointsArr : List (List Point)}
    {dataArr : List (List (List Int))}
    (h : to_numpy_time_steps tsol names tsArg = .ok (tl, pointsArr, dataArr)) :
    to_numpy_time_steps_2d tsol names tsArg =
      timeSteps2dPost names tl pointsArr dataArr := by
  unfold to_numpy_time_steps_2d timeSteps2dPost
  conv_lhs => rw [h]
  rfl

theorem to_numpy_time_steps_3d_eq {tsol : TimeSolution} {names : List String}
    {tsArg : Option (List Int)} {tl : List Int} {pointsArr : List (List Point)}
    {dataArr : List (List (List Int))}
    (h : to_numpy_time_steps tsol names tsArg = .ok (tl, pointsArr, dataArr)) :
    to_numpy_time_steps_3d tsol names tsArg =
      timeSteps3dPost names tl pointsArr dataArr := by
  unfold to_numpy_time_steps_3d timeSteps3dPost
  conv_lhs => rw [h]
  rfl

theorem isRect_of_rows {m : List (List Int)} {k : Nat}
    (h : ∀ r ∈ m, r.length = k) : isRect m = true := by
  unfold isRect
  cases m with
  | nil => rfl
  | cons r rs =>
    rw [List.all_eq_true]
    intro s hs
    rw [beq_iff_eq, h s (List.mem_cons_of_mem r hs),
      h r (List.mem_cons_self r rs)]

theorem shape2_eq_of_rows {m m2 : List (List Int)} {k : Nat}
    (hm : ∀ r ∈ m, r.length = k) (hm2 : ∀ r ∈ m2, r.length = k)
    (hl : m.length = m2.length) : shape2 m = shape2 m2 := by
  unfold shape2
  cases m with
  | nil =>
    cases m2 with
    | nil => rfl
    | cons r rs => cases hl
  | cons r rs =>
    cases m2 with
    | nil => cases hl
    | cons r2 rs2 =>
      show ((r :: rs).length, r.length) = ((r2 :: rs2).length, r2.length)
      rw [hl, hm r (List.mem_cons_self r rs), hm2 r2 (List.mem_cons_self r2 rs2)]

theorem shape2_of_rows {m : List (List Int)} {k : Nat} {r0 : List Int}
    {mrest : List (List Int)} (hm : m = r0 :: mrest)
    (h : ∀ r ∈ m, r.length = k) : shape2 m = (m.length, k) := by
  subst hm
  show ((r0 :: mrest).length, r0.length) = _
  rw [h r0 (List.mem_cons_self r0 mrest)]

theorem npStack_ok {frames : List (List (List Int))}
    (hrect : ∀ f ∈ frames, isRect f = true)
    (hsh : ∀ f ∈ frames, ∀ g ∈ frames, shape2 f = shape2 g) :
    npStack frames = .ok frames := by
  unfold npStack
  rw [if_pos]
  rw [Bool.and_eq_true]
  constructor
  · rw [List.all_eq_true]
    intro f hf
    exact hrect f hf
  · cases frames with
    | nil => rfl
    | cons f restf =>
      rw [List.all_eq_true]
      intro g hg
      rw [beq_iff_eq]
      exact hsh g (List.mem_cons_of_mem f hg) f (List.mem_cons_self f restf)

theorem npStack_error {frames : List (List (List Int))}
    {f g : List (List Int)} (hf : f ∈ frames) (hg : g ∈ frames)
    (hne : shape2 f ≠ shape2 g) :
    npStack frames = .error .inhomogeneousArray := by
  unfold npStack
  rw [if_neg]
  intro hc
  rw [Bool.and_eq_true] at hc
  obtain ⟨_, hall⟩ := hc
  cases frames with
  | nil => cases hf
  | cons f0 restf =>
    rw [List.all_eq_true] at hall
    have hsh : ∀ a ∈ f0 :: restf, shape2 a = shape2 f0 := by
      intro a ha
      rcases List.mem_cons.mp ha with h1 | h2
      · rw [h1]
      · exact beq_iff_eq.mp (hall a h2)
    exact hne ((hsh f hf).trans (hsh g hg).symm)

theorem to_numpy_2d_of_sizes {sol : Solution} {names : List String}
    {pts : List Point} {data : List (List Int)} {p0 : Point}
    {rest : List Point}
    (h : to_numpy_point_list sol names = .ok (pts, data))
    (hp : pts = p0 :: rest)
    (hsz : (inferShape2d p0 pts).1 * (inferShape2d p0 pts).2 = pts.length) :
    to_numpy_2d sol names =
      .ok (chunks (inferShape2d p0 pts).1 (inferShape2d p0 pts).2 pts,
           data.map (chunks (inferShape2d p0 pts).1 (inferShape2d p0 pts).2)) := by
  obtain ⟨_, hlen, hrows⟩ := to_numpy_point_list_ok h
  have hrowsN : ∀ row ∈ data,
      row.length = (inferShape2d p0 pts).1 * (inferShape2d p0 pts).2 :=
    fun row hr => by
      rw [hrows row hr, ← to_numpy_point_list_ok_length h, hsz]
  rw [to_numpy_2d_eq h hp]
  have hres2 : npReshape2 (inferShape2d p0 pts).1 (inferShape2d p0 pts).2 pts =
      .ok (chunks (inferShape2d p0 pts).1 (inferShape2d p0 pts).2 pts) := by
    unfold npReshape2
    rw [if_pos hsz]
  have hres3 : npReshape3 names.length (inferShape2d p0 pts).1
      (inferShape2d p0 pts).2 data.flatten =
      .ok (data.map (chunks (inferShape2d p0 pts).1 (inferShape2d p0 pts).2)) := by
    unfold npReshape3
    rw [if_pos (data_flatten_length hlen hrowsN).symm]
    have hch : chunks names.length
        ((inferShape2d p0 pts).1 * (inferShape2d p0 pts).2) data.flatten =
        data := by
      rw [← hlen]
      exact chunks_flatten_uniform hrowsN
    rw [hch]
  rw [hres2, hres3]
  rfl

theorem to_numpy_3d_of_sizes {sol : Solution} {names : List String}
    {pts : List Point} {data : List (List Int)} {p0 : Point}
    {rest : List Point}
    (h : to_numpy_point_list sol names = .ok (pts, data))
    (hp : pts = p0 :: rest)
    (hsz : (inferShape3d p0 pts).1 * ((inferShape3d p0 pts).2.1 *
      (inferShape3d p0 pts).2.2) = pts.length) :
    to_numpy_3d sol names =
      .ok ((chunks (inferShape3d p0 pts).1
              ((inferShape3d p0 pts).2.1 * (inferShape3d p0 pts).2.2) pts).map
             (chunks (inferShape3d p0 pts).2.1 (inferShape3d p0 pts).2.2),
           data.map (fun row =>
             (chunks (inferShape3d p0 pts).1
               ((inferShape3d p0 pts).2.1 * (inferShape3d p0 pts).2.2) row).map
               (chunks (inferShape3d p0 pts).2.1 (inferShape3d p0 pts).2.2))) := by
  obtain ⟨_, hlen, hrows⟩ := to_numpy_point_list_ok h
  have hrowsN : ∀ row ∈ data, row.length = (inferShape3d p0 pts).1 *
      ((inferShape3d p0 pts).2.1 * (inferShape3d p0 pts).2.2) :=
    fun row hr => by
      rw [hrows row hr, ← to_numpy_point_list_ok_length h, hsz]
  rw [to_numpy_3d_eq h hp]
  have hres3 : npReshape3 (inferShape3d p0 pts).1 (inferShape3d p0 pts).2.1
      (inferShape3d p0 pts).2.2 pts =
      .ok ((chunks (inferShape3d p0 pts).1
        ((inferShape3d p0 pts).2.1 * (inferShape3d p0 pts).2.2) pts).map
        (chunks (inferShape3d p0 pts).2.1 (inferShape3d p0 pts).2.2)) := by
    unfold npReshape3
    rw [if_pos hsz]
  have hres4 : npReshape4 names.length (inferShape3d p0 pts).1
      (inferShape3d p0 pts).2.1 (inferShape3d p0 pts).2.2 data.flatten =
      .ok (data.map (fun row =>
        (chunks (inferShape3d p0 pts).1
          ((inferShape3d p0 pts).2.1 * (inferShape3d p0 pts).2.2) row).map
          (chunks (inferShape3d p0 pts).2.1 (inferShape3d p0 pts).2.2))) := by
    unfold npReshape4
    rw [if_pos (data_flatten_length hlen hrowsN).symm]
    have hch : chunks names.length ((inferShape3d p0 pts).1 *
        ((inferShape3d p0 pts).2.1 * (inferShape3d p0 pts).2.2)) data.flatten =
        data := by
      rw [← hlen]
      exact chunks_flatten_uniform hrowsN
    rw [hch]
  rw [hres3, hres4]
  rfl

/-- Frame 0 for the C7 instance: a 2 × 2 grid with 4 samples. -/
def solC7a : Solution :=
  ⟨[], fun _ => none,
   [⟨0, 0, 0⟩, ⟨0, 1, 0⟩, ⟨1, 0, 0⟩, ⟨1, 1, 0⟩],
   fun nm => if nm = "f" then some (.scalar [1, 2, 3, 4]) else none⟩

/-- Frame 1 for the C7 instance: 5 samples on a line. -/
def solC7b : Solution :=
  ⟨[], fun _ => none,
   [⟨0, 0, 0⟩, ⟨1, 0, 0⟩, ⟨2, 0, 0⟩, ⟨3, 0, 0⟩, ⟨4, 0, 0⟩],
   fun nm => if nm = "f" then some (.scalar [1, 2, 3, 4, 5]) else none⟩

/-- A time series whose frame 0 has 4 samples and frame 1 has 5. -/
def tsolC7 : TimeSolution :=
  ⟨[0, 1], fun t => if t = 0 then solC7a else solC7b⟩

/-- C7 counterexample: the claim says the raised shape-mismatch error
identifies the offending time index.  On a time series with 4 samples at
frame 0 and 5 at frame 1, what is actually raised is numpy's
inhomogeneous-`np.array` `ValueError` (modelled by the payload-free
`NumpyError.inhomogeneousArray`), which carries no time index at all. -/
theorem time_mismatch_counterexample :
    to_numpy_time_steps_2d tsolC7 ["f"] none =
      .error .inhomogeneousArray := by
  decide

/-- C7 (amended): when some later frame's sample count differs from the
first frame's (and at least one field is requested), the fixed-grid
time-series extraction raises a shape-mismatch error — numpy's
inhomogeneous-array `ValueError` from `np.array(data)` — but that error
does not identify the offending time index. -/
theorem time_series_mismatch_spec :
    ∀ (tsol : TimeSolution) (names : List String) (tsArg : Option (List Int))
      (tl : List Int) (t₀ : Int) (rest : List Int)
      (framePts : Int → List Point) (frameData : Int → List (List Int)),
      effectiveTimeSteps tsol tsArg = tl →
      tl = t₀ :: rest →
      (∀ t ∈ tl, to_numpy_point_list (tsol.snap t) names =
        .ok (framePts t, frameData t)) →
      names ≠ [] →
      (∃ t ∈ tl, (framePts t).length ≠ (framePts t₀).length) →
      to_numpy_time_steps_2d tsol names tsArg = .error .inhomogeneousArray ∧
      to_numpy_time_steps_3d tsol names tsArg = .error .inhomogeneousArray := by
  intro tsol names tsArg tl t₀ rest framePts frameData hts htl hframe hnames hmis
  subst htl
  have htsok := to_numpy_time_steps_ok_of_forall framePts frameData hts hframe
  have hCpos : names.length ≠ 0 := fun hc =>
    hnames (List.eq_nil_of_length_eq_zero hc)
  have hsh : ∀ u ∈ t₀ :: rest,
      shape2 (frameData u) = (names.length, (framePts u).length) := by
    intro u hu
    obtain ⟨_, hlen, hrows⟩ := to_numpy_point_list_ok (hframe u hu)
    have hplen := to_numpy_point_list_ok_length (hframe u hu)
    have hrows2 : ∀ r ∈ frameData u, r.length = (framePts u).length :=
      fun r hr => by rw [hrows r hr, ← hplen]
    cases hfd : frameData u with
    | nil =>
      rw [hfd] at hlen
      exact absurd hlen.symm hCpos
    | cons r mrest =>
      have h2 := shape2_of_rows hfd hrows2
      rw [← hfd, h2, hlen]
  obtain ⟨t, ht, hneq⟩ := hmis
  have hne2 : shape2 (frameData t) ≠ shape2 (frameData t₀) := by
    rw [hsh t ht, hsh t₀ (List.mem_cons_self t₀ rest)]
    intro hEq
    exact hneq (congrArg Prod.snd hEq)
  have hstackErr : npStack ((t₀ :: rest).map frameData) =
      .error .inhomogeneousArray :=
    npStack_error (List.mem_map_of_mem frameData ht)
      (List.mem_map_of_mem frameData (List.mem_cons_self t₀ rest)) hne2
  constructor
  · rw [to_numpy_time_steps_2d_eq htsok]
    unfold timeSteps2dPost
    rw [hstackErr]
    rfl
  · rw [to_numpy_time_steps_3d_eq htsok]
    unfold timeSteps3dPost
    rw [hstackErr]
    rfl

theorem time_series_mismatch_spec_witness :
    to_numpy_time_steps_2d tsolC7 ["f"] none = .error .inhomogeneousArray ∧
    to_numpy_time_steps_3d tsolC7 ["f"] none = .error .inhomogeneousArray :=
  time_series_mismatch_spec tsolC7 ["f"] none [0, 1] 0 [1]
    (fun t => if t = 0 then solC7a.cellCenters else solC7b.cellCenters)
    (fun t => if t = 0 then [[1, 2, 3, 4]] else [[1, 2, 3, 4, 5]])
    rfl rfl (by decide) (by decide) ⟨1, by decide, by decide⟩

theorem fixed_grid_time_series_2d {tsol : TimeSolution} {names : List String}
    {tsArg : Option (List Int)} {tl : List Int} {t₀ : Int} {rest : List Int}
    {framePts : Int → List Point} {frameData : Int → List (List Int)}
    {pts0 : List Point} {p0 : Point} {prest : List Point}
    (hts : effectiveTimeSteps tsol tsArg = tl)
    (htl : tl = t₀ :: rest)
    (hframe : ∀ t ∈ tl, to_numpy_point_list (tsol.snap t) names =
      .ok (framePts t, frameData t))
    (hgeom : ∀ t ∈ tl, framePts t = pts0)
    (hp0 : pts0 = p0 :: prest)
    (hsz : (inferShape2d p0 pts0).1 * (inferShape2d p0 pts0).2 = pts0.length) :
    ∃ pgrid dgrid,
      to_numpy_time_steps_2d tsol names tsArg = .ok (tl, pgrid, dgrid) ∧
      dgrid.length = tl.length ∧
      (∀ d ∈ dgrid, d.length = names.length) ∧
      (∀ (k : Nat) (t : Int), tl[k]? = some t →
        ∃ d, dgrid[k]? = some d ∧
          to_numpy_2d (tsol.snap t) names = .ok (pgrid, d)) := by
  subst htl
  subst hp0
  have htsok := to_numpy_time_steps_ok_of_forall framePts frameData hts hframe
  have hframeFacts : ∀ t ∈ t₀ :: rest,
      (frameData t).length = names.length ∧
      ∀ r ∈ frameData t, r.length = (p0 :: prest).length := by
    intro t ht
    obtain ⟨_, hlen, hrows⟩ := to_numpy_point_list_ok (hframe t ht)
    have hplen := to_numpy_point_list_ok_length (hframe t ht)
    refine ⟨hlen, fun r hr => ?_⟩
    rw [hrows r hr, ← hplen, hgeom t ht]
  have hstack : npStack ((t₀ :: rest).map frameData) =
      .ok ((t₀ :: rest).map frameData) := by
    refine npStack_ok ?_ ?_
    · intro f hf
      obtain ⟨t, ht, rfl⟩ := List.mem_map.mp hf
      exact isRect_of_rows (hframeFacts t ht).2
    · intro f hf g hg
      obtain ⟨t, ht, rfl⟩ := List.mem_map.mp hf
      obtain ⟨u, hu, rfl⟩ := List.mem_map.mp hg
      exact shape2_eq_of_rows (hframeFacts t ht).2 (hframeFacts u hu).2
        (by rw [(hframeFacts t ht).1, (hframeFacts u hu).1])
  have h2d : ∀ t ∈ t₀ :: rest, to_numpy_2d (tsol.snap t) names =
      .ok (chunks (inferShape2d p0 (p0 :: prest)).1
             (inferShape2d p0 (p0 :: prest)).2 (p0 :: prest),
           (frameData t).map (chunks (inferShape2d p0 (p0 :: prest)).1
             (inferShape2d p0 (p0 :: prest)).2)) := by
    intro t ht
    have h := hframe t ht
    rw [hgeom t ht] at h
    exact to_numpy_2d_of_sizes h rfl hsz
  have hrowsSz : ∀ t ∈ t₀ :: rest, ∀ r ∈ frameData t,
      r.length = (inferShape2d p0 (p0 :: prest)).1 *
        (inferShape2d p0 (p0 :: prest)).2 := by
    intro t ht r hr
    rw [(hframeFacts t ht).2 r hr, ← hsz]
  have hflatBlocks : ∀ b ∈ ((t₀ :: rest).map frameData).map List.flatten,
      b.length = names.length * ((inferShape2d p0 (p0 :: prest)).1 *
        (inferShape2d p0 (p0 :: prest)).2) := by
    intro b hb
    obtain ⟨fd, hfd, rfl⟩ := List.mem_map.mp hb
    obtain ⟨t, ht, rfl⟩ := List.mem_map.mp hfd
    exact data_flatten_length (hframeFacts t ht).1 (hrowsSz t ht)
  have hres2 : npReshape2 (inferShape2d p0 (p0 :: prest)).1
      (inferShape2d p0 (p0 :: prest)).2 (p0 :: prest) =
      .ok (chunks (inferShape2d p0 (p0 :: prest)).1
        (inferShape2d p0 (p0 :: prest)).2 (p0 :: prest)) := by
    unfold npReshape2
    rw [if_pos hsz]
  have hres4 : npReshape4 (t₀ :: rest).length names.length
      (inferShape2d p0 (p0 :: prest)).1 (inferShape2d p0 (p0 :: prest)).2
      ((((t₀ :: rest).map frameData).map List.flatten).flatten) =
      .ok ((t₀ :: rest).map (fun t => (frameData t).map
        (chunks (inferShape2d p0 (p0 :: prest)).1
          (inferShape2d p0 (p0 :: prest)).2))) := by
    unfold npReshape4
    rw [if_pos (data_flatten_length
      (by rw [List.length_map, List.length_map]) hflatBlocks).symm]
    have hch : chunks (t₀ :: rest).length
        (names.length * ((inferShape2d p0 (p0 :: prest)).1 *
          (inferShape2d p0 (p0 :: prest)).2))
        ((((t₀ :: rest).map frameData).map List.flatten).flatten) =
        ((t₀ :: rest).map frameData).map List.flatten := by
      have h2 := chunks_flatten_uniform hflatBlocks
      rwa [List.length_map, List.length_map] at h2
    rw [hch, List.map_map, List.map_map]
    refine congrArg Except.ok (List.map_congr_left ?_)
    intro t ht
    show (chunks names.length ((inferShape2d p0 (p0 :: prest)).1 *
        (inferShape2d p0 (p0 :: prest)).2) (frameData t).flatten).map
        (chunks (inferShape2d p0 (p0 :: prest)).1
          (inferShape2d p0 (p0 :: prest)).2) = _
    have hch2 : chunks names.length ((inferShape2d p0 (p0 :: prest)).1 *
        (inferShape2d p0 (p0 :: prest)).2) (frameData t).flatten =
        frameData t := by
      have h3 := chunks_flatten_uniform (hrowsSz t ht)
      rwa [(hframeFacts t ht).1] at h3
    rw [hch2]
  refine ⟨chunks (inferShape2d p0 (p0 :: prest)).1
      (inferShape2d p0 (p0 :: prest)).2 (p0 :: prest),
    (t₀ :: rest).map (fun t => (frameData t).map
      (chunks (inferShape2d p0 (p0 :: prest)).1
        (inferShape2d p0 (p0 :: prest)).2)), ?_, ?_, ?_, ?_⟩
  · rw [to_numpy_time_steps_2d_eq htsok]
    unfold timeSteps2dPost
    rw [hstack, List.map_cons framePts t₀ rest,
      hgeom t₀ (List.mem_cons_self t₀ rest)]
    show (do
      let pgrid ← npReshape2 (inferShape2d p0 (p0 :: prest)).1
        (inferShape2d p0 (p0 :: prest)).2 (p0 :: prest)
      let dgrid ← npReshape4 (t₀ :: rest).length names.length
        (inferShape2d p0 (p0 :: prest)).1 (inferShape2d p0 (p0 :: prest)).2
        ((((t₀ :: rest).map frameData).map List.flatten).flatten)
      pure ((t₀ :: rest), pgrid, dgrid)) = _
    rw [hres2, hres4]
    rfl
  · rw [List.length_map]
  · intro d hd
    obtain ⟨t, ht, rfl⟩ := List.mem_map.mp hd
    rw [List.length_map]
    exact (hframeFacts t ht).1
  · intro k t hk
    have ht : t ∈ t₀ :: rest := List.getElem?_mem hk
    refine ⟨(frameData t).map (chunks (inferShape2d p0 (p0 :: prest)).1
      (inferShape2d p0 (p0 :: prest)).2), ?_, h2d t ht⟩
    rw [List.getElem?_map, hk]
    rfl

theorem fixed_grid_time_series_3d {tsol : TimeSolution} {names : List String}
    {tsArg : Option (List Int)} {tl : List Int} {t₀ : Int} {rest : List Int}
    {framePts : Int → List Point} {frameData : Int → List (List Int)}
    {pts0 : List Point} {p0 : Point} {prest : List Point}
    (hts : effectiveTimeSteps tsol tsArg = tl)
    (htl : tl = t₀ :: rest)
    (hframe : ∀ t ∈ tl, to_numpy_point_list (tsol.snap t) names =
      .ok (framePts t, frameData t))
    (hgeom : ∀ t ∈ tl, framePts t = pts0)
    (hp0 : pts0 = p0 :: prest)
    (hsz : (inferShape3d p0 pts0).1 * ((inferShape3d p0 pts0).2.1 *
      (inferShape3d p0 pts0).2.2) = pts0.length) :
    ∃ pgrid dgrid,
      to_numpy_time_steps_3d tsol names tsArg = .ok (tl, pgrid, dgrid) ∧
      dgrid.length = tl.length ∧
      (∀ d ∈ dgrid, d.length = names.length) ∧
      (∀ (k : Nat) (t : Int), tl[k]? = some t →
        ∃ d, dgrid[k]? = some d ∧
          to_numpy_3d (tsol.snap t) names = .ok (pgrid, d)) := by
  subst htl
  subst hp0
  have htsok := to_numpy_time_steps_ok_of_forall framePts frameData hts hframe
  have hframeFacts : ∀ t ∈ t₀ :: rest,
      (frameData t).length = names.length ∧
      ∀ r ∈ frameData t, r.length = (p0 :: prest).length := by
    intro t ht
    obtain ⟨_, hlen, hrows⟩ := to_numpy_point_list_ok (hframe t ht)
    have hplen := to_numpy_point_list_ok_length (hframe t ht)
    refine ⟨hlen, fun r hr => ?_⟩
    rw [hrows r hr, ← hplen, hgeom t ht]
  have hstack : npStack ((t₀ :: rest).map frameData) =
      .ok ((t₀ :: rest).map frameData) := by
    refine npStack_ok ?_ ?_
    · intro f hf
      obtain ⟨t, ht, rfl⟩ := List.mem_map.mp hf
      exact isRect_of_rows (hframeFacts t ht).2
    · intro f hf g hg
      obtain ⟨t, ht, rfl⟩ := List.mem_map.mp hf
      obtain ⟨u, hu, rfl⟩ := List.mem_map.mp hg
      exact shape2_eq_of_rows (hframeFacts t ht).2 (hframeFacts u hu).2
        (by rw [(hframeFacts t ht).1, (hframeFacts u hu).1])
  have h3d : ∀ t ∈ t₀ :: rest, to_numpy_3d (tsol.snap t) names =
      .ok ((chunks (inferShape3d p0 (p0 :: prest)).1
              ((inferShape3d p0 (p0 :: prest)).2.1 *
               (inferShape3d p0 (p0 :: prest)).2.2) (p0 :: prest)).map
             (chunks (inferShape3d p0 (p0 :: prest)).2.1
               (inferShape3d p0 (p0 :: prest)).2.2),
           (frameData t).map (fun row =>
             (chunks (inferShape3d p0 (p0 :: prest)).1
               ((inferShape3d p0 (p0 :: prest)).2.1 *
                (inferShape3d p0 (p0 :: prest)).2.2) row).map
               (chunks (inferShape3d p0 (p0 :: prest)).2.1
                 (inferShape3d p0 (p0 :: prest)).2.2))) := by
    intro t ht
    have h := hframe t ht
    rw [hgeom t ht] at h
    exact to_numpy_3d_of_sizes h rfl hsz
  have hrowsSz : ∀ t ∈ t₀ :: rest, ∀ r ∈ frameData t,
      r.length = (inferShape3d p0 (p0 :: prest)).1 *
        ((inferShape3d p0 (p0 :: prest)).2.1 *
         (inferShape3d p0 (p0 :: prest)).2.2) := by
    intro t ht r hr
    rw [(hframeFacts t ht).2 r hr, ← hsz]
  have hflatBlocks : ∀ b ∈ ((t₀ :: rest).map frameData).map List.flatten,
      b.length = names.length * ((inferShape3d p0 (p0 :: prest)).1 *
        ((inferShape3d p0 (p0 :: prest)).2.1 *
         (inferShape3d p0 (p0 :: prest)).2.2)) := by
    intro b hb
    obtain ⟨fd, hfd, rfl⟩ := List.mem_map.mp hb
    obtain ⟨t, ht, rfl⟩ := List.mem_map.mp hfd
    exact data_flatten_length (hframeFacts t ht).1 (hrowsSz t ht)
  have hres3 : npReshape3 (inferShape3d p0 (p0 :: prest)).1
      (inferShape3d p0 (p0 :: prest)).2.1 (inferShape3d p0 (p0 :: prest)).2.2
      (p0 :: prest) =
      .ok ((chunks (inferShape3d p0 (p0 :: prest)).1
        ((inferShape3d p0 (p0 :: prest)).2.1 *
         (inferShape3d p0 (p0 :: prest)).2.2) (p0 :: prest)).map
        (chunks (inferShape3d p0 (p0 :: prest)).2.1
          (inferShape3d p0 (p0 :: prest)).2.2)) := by
    unfold npReshape3
    rw [if_pos hsz]
  have hres5 : npReshape5 (t₀ :: rest).length names.length
      (inferShape3d p0 (p0 :: prest)).1 (inferShape3d p0 (p0 :: prest)).2.1
      (inferShape3d p0 (p0 :: prest)).2.2
      ((((t₀ :: rest).map frameData).map List.flatten).flatten) =
      .ok ((t₀ :: rest).map (fun t => (frameData t).map (fun row =>
        (chunks (inferShape3d p0 (p0 :: prest)).1
          ((inferShape3d p0 (p0 :: prest)).2.1 *
           (inferShape3d p0 (p0 :: prest)).2.2) row).map
          (chunks (inferShape3d p0 (p0 :: prest)).2.1
            (inferShape3d p0 (p0 :: prest)).2.2)))) := by
    unfold npReshape5
    rw [if_pos (data_flatten_length
      (by rw [List.length_map, List.length_map]) hflatBlocks).symm]
    have hch : chunks (t₀ :: rest).length
        (names.length * ((inferShape3d p0 (p0 :: prest)).1 *
          ((inferShape3d p0 (p0 :: prest)).2.1 *
           (inferShape3d p0 (p0 :: prest)).2.2)))
        ((((t₀ :: rest).map frameData).map List.flatten).flatten) =
        ((t₀ :: rest).map frameData).map List.flatten := by
      have h2 := chunks_flatten_uniform hflatBlocks
      rwa [List.length_map, List.length_map] at h2
    rw [hch, List.map_map, List.map_map]
    refine congrArg Except.ok (List.map_congr_left ?_)
    intro t ht
    show (chunks names.length ((inferShape3d p0 (p0 :: prest)).1 *
        ((inferShape3d p0 (p0 :: prest)).2.1 *
         (inferShape3d p0 (p0 :: prest)).2.2)) (frameData t).flatten).map
        (fun u => (chunks (inferShape3d p0 (p0 :: prest)).1
          ((inferShape3d p0 (p0 :: prest)).2.1 *
           (inferShape3d p0 (p0 :: prest)).2.2) u).map
          (chunks (inferShape3d p0 (p0 :: prest)).2.1
            (inferShape3d p0 (p0 :: prest)).2.2)) = _
    have hch2 : chunks names.length ((inferShape3d p0 (p0 :: prest)).1 *
        ((inferShape3d p0 (p0 :: prest)).2.1 *
         (inferShape3d p0 (p0 :: prest)).2.2)) (frameData t).flatten =
        frameData t := by
      have h3 := chunks_flatten_uniform (hrowsSz t ht)
      rwa [(hframeFacts t ht).1] at h3
    rw [hch2]
  refine ⟨(chunks (inferShape3d p0 (p0 :: prest)).1
      ((inferShape3d p0 (p0 :: prest)).2.1 *
       (inferShape3d p0 (p0 :: prest)).2.2) (p0 :: prest)).map
      (chunks (inferShape3d p0 (p0 :: prest)).2.1
        (inferShape3d p0 (p0 :: prest)).2.2),
    (t₀ :: rest).map (fun t => (frameData t).map (fun row =>
      (chunks (inferShape3d p0 (p0 :: prest)).1
        ((inferShape3d p0 (p0 :: prest)).2.1 *
         (inferShape3d p0 (p0 :: prest)).2.2) row).map
        (chunks (inferShape3d p0 (p0 :: prest)).2.1
          (inferShape3d p0 (p0 :: prest)).2.2))), ?_, ?_, ?_, ?_⟩
  · rw [to_numpy_time_steps_3d_eq htsok]
    unfold timeSteps3dPost
    rw [hstack, List.map_cons framePts t₀ rest,
      hgeom t₀ (List.mem_cons_self t₀ rest)]
    show (do
      let pgrid ← npReshape3 (inferShape3d p0 (p0 :: prest)).1
        (inferShape3d p0 (p0 :: prest)).2.1
        (inferShape3d p0 (p0 :: prest)).2.2 (p0 :: prest)
      let dgrid ← npReshape5 (t₀ :: rest).length names.length
        (inferShape3d p0 (p0 :: prest)).1 (inferShape3d p0 (p0 :: prest)).2.1
        (inferShape3d p0 (p0 :: prest)).2.2
        ((((t₀ :: rest).map frameData).map List.flatten).flatten)
      pure ((t₀ :: rest), pgrid, dgrid)) = _
    rw [hres3, hres5]
    rfl
  · rw [List.length_map]
  · intro d hd
    obtain ⟨t, ht, rfl⟩ := List.mem_map.mp hd
    rw [List.length_map]
    exact (hframeFacts t ht).1
  · intro k t hk
    have ht : t ∈ t₀ :: rest := List.getElem?_mem hk
    refine ⟨(frameData t).map (fun row =>
      (chunks (inferShape3d p0 (p0 :: prest)).1
        ((inferShape3d p0 (p0 :: prest)).2.1 *
         (inferShape3d p0 (p0 :: prest)).2.2) row).map
        (chunks (inferShape3d p0 (p0 :: prest)).2.1
          (inferShape3d p0 (p0 :: prest)).2.2)), ?_, h3d t ht⟩
    rw [List.getElem?_map, hk]
    rfl

/-- C8: for a fixed-grid time-series extraction (2D or 3D over time) in
which every frame extracts successfully and shares the first frame's
sorted geometry, and the shape inferred from the first frame's sorted
points multiplies out to the sample count, the extraction succeeds; the
shape is inferred only from the first frame, the stacked output is
indexed (time, channel, grid axes) — one entry per time step, each with
one grid per requested channel — and frame `t` of the output equals the
plain 2D (resp. 3D) extraction of the data source evaluated at
`time_steps[t]`. -/
theorem fixed_grid_time_series_spec :
    (∀ (tsol : TimeSolution) (names : List String) (tsArg : Option (List Int))
       (tl : List Int) (t₀ : Int) (rest : List Int)
       (framePts : Int → List Point) (frameData : Int → List (List Int))
       (pts0 : List Point) (p0 : Point) (prest : List Point),
       effectiveTimeSteps tsol tsArg = tl →
       tl = t₀ :: rest →
       (∀ t ∈ tl, to_numpy_point_list (tsol.snap t) names =
         .ok (framePts t, frameData t)) →
       (∀ t ∈ tl, framePts t = pts0) →
       pts0 = p0 :: prest →
       (inferShape2d p0 pts0).1 * (inferShape2d p0 pts0).2 = pts0.length →
       ∃ pgrid dgrid,
         to_numpy_time_steps_2d tsol names tsArg = .ok (tl, pgrid, dgrid) ∧
         dgrid.length = tl.length ∧
         (∀ d ∈ dgrid, d.length = names.length) ∧
         (∀ (k : Nat) (t : Int), tl[k]? = some t →
           ∃ d, dgrid[k]? = some d ∧
             to_numpy_2d (tsol.snap t) names = .ok (pgrid, d))) ∧
    (∀ (tsol : TimeSolution) (names : List String) (tsArg : Option (List Int))
       (tl : List Int) (t₀ : Int) (rest : List Int)
       (framePts : Int → List Point) (frameData : Int → List (List Int))
       (pts0 : List Point) (p0 : Point) (prest : List Point),
       effectiveTimeSteps tsol tsArg = tl →
       tl = t₀ :: rest →
       (∀ t ∈ tl, to_numpy_point_list (tsol.snap t) names =
         .ok (framePts t, frameData t)) →
       (∀ t ∈ tl, framePts t = pts0) →
       pts0 = p0 :: prest →
       (inferShape3d p0 pts0).1 * ((inferShape3d p0 pts0).2.1 *
         (inferShape3d p0 pts0).2.2) = pts0.length →
       ∃ pgrid dgrid,
         to_numpy_time_steps_3d tsol names tsArg = .ok (tl, pgrid, dgrid) ∧
         dgrid.length = tl.length ∧
         (∀ d ∈ dgrid, d.length = names.length) ∧
         (∀ (k : Nat) (t : Int), tl[k]? = some t →
           ∃ d, dgrid[k]? = some d ∧
             to_numpy_3d (tsol.snap t) names = .ok (pgrid, d))) :=
  ⟨fun _ _ _ _ _ _ _ _ _ _ _ hts htl hframe hgeom hp0 hsz =>
     fixed_grid_time_series_2d hts htl hframe hgeom hp0 hsz,
   fun _ _ _ _ _ _ _ _ _ _ _ hts htl hframe hgeom hp0 hsz =>
     fixed_grid_time_series_3d hts htl hframe hgeom hp0 hsz⟩

/-- Frame 0 of the C8 witness: 2 × 2 grid, values 1..4. -/
def solC8a : Solution :=
  ⟨[], fun _ => none,
   [⟨0, 0, 0⟩, ⟨0, 1, 0⟩, ⟨1, 0, 0⟩, ⟨1, 1, 0⟩],
   fun nm => if nm = "f" then some (.scalar [1, 2, 3, 4]) else none⟩

/-- Frame 1 of the C8 witness: the identical grid, values 5..8. -/
def solC8b : Solution :=
  ⟨[], fun _ => none,
   [⟨0, 0, 0⟩, ⟨0, 1, 0⟩, ⟨1, 0, 0⟩, ⟨1, 1, 0⟩],
   fun nm => if nm = "f" then some (.scalar [5, 6, 7, 8]) else none⟩

/-- Two time coordinates over one unchanging 2 × 2 grid. -/
def tsolC8 : TimeSolution :=
  ⟨[0, 1], fun t => if t = 0 then solC8a else solC8b⟩

theorem fixed_grid_time_series_spec_witness :
    ∃ pgrid dgrid,
      to_numpy_time_steps_2d tsolC8 ["f"] none = .ok ([0, 1], pgrid, dgrid) ∧
      dgrid.length = 2 ∧
      (∃ d, dgrid[1]? = some d ∧
        to_numpy_2d (tsolC8.snap 1) ["f"] = .ok (pgrid, d)) := by
  obtain ⟨pgrid, dgrid, heq, hlen, _, hframes⟩ :=
    fixed_grid_time_series_spec.1 tsolC8 ["f"] none [0, 1] 0 [1]
      (fun _ => [⟨0, 0, 0⟩, ⟨0, 1, 0⟩, ⟨1, 0, 0⟩, ⟨1, 1, 0⟩])
      (fun t => if t = 0 then [[1, 2, 3, 4]] else [[5, 6, 7, 8]])
      [⟨0, 0, 0⟩, ⟨0, 1, 0⟩, ⟨1, 0, 0⟩, ⟨1, 1, 0⟩] ⟨0, 0, 0⟩
      [⟨0, 1, 0⟩, ⟨1, 0, 0⟩, ⟨1, 1, 0⟩]
      rfl rfl (by decide) (by decide) rfl (by decide)
  exact ⟨pgrid, dgrid, heq, hlen, hframes 1 1 rfl⟩

end Numpyify
